import Mathlib

/-! ## ofxOscReceiver: a verification development

Shallow embedding of `addons/ofxOsc/src/ofxOscReceiver.cpp`.

* The listening-socket manager (`setup`, `clear`, `copy`, `enableReuse`,
  `disableReuse`, `getPort`) is a state transformer on the members of the C++
  object together with the part of the process it touches (the socket objects
  it allocates and the detached listen threads it spawns).
* Whether the constructor of `osc::UdpListeningReceiveSocket` throws is decided
  by the operating system; every operation that may reach the constructor takes
  that outcome as the Boolean argument `ok`.
* The receive thread is a small program counter machine; consumer calls and
  thread steps are interleaved by `exec`.
-/

namespace ofxOsc

/-! ## Listening socket manager -/

/-- An `osc::UdpListeningReceiveSocket` object.  `id` is the allocation number of
the object (its identity); `port` and `allowReuse` are the constructor arguments
`IpEndpointName(ANY_ADDRESS, port)` and `allowReuse`. -/
structure UdpListeningReceiveSocket where
  id : Nat
  port : Int
  allowReuse : Bool
deriving DecidableEq, Repr

/-- Observable actions on sockets and threads, in program order. -/
inductive Event where
  /-- the socket constructor returned: the socket is bound and live -/
  | created (sock : UdpListeningReceiveSocket)
  /-- the socket constructor threw; the error is logged -/
  | createFailed (port : Int) (allowReuse : Bool)
  /-- the deleter called `socket->Break()` -/
  | breakSignalled (id : Nat)
  /-- the deleter called `delete socket` -/
  | deleted (id : Nat)
  /-- setup started a detached `std::thread` -/
  | spawned (thread : Nat)
  /-- a listen thread called `Run()` on the socket object `socket` -/
  | run (thread : Nat) (socket : Nat)
  /-- a listen thread called `Run()` through a null `listenSocket` -/
  | nullDeref (thread : Nat)
deriving DecidableEq, Repr

/-- Program counter of the lambda started in `setup`:
`while(listenSocket){ try{ listenSocket->Run(); } catch(...){...} }`. -/
inductive ThreadPc where
  /-- about to evaluate the loop condition `listenSocket` -/
  | loopTest
  /-- the condition held; about to evaluate `listenSocket->Run()` -/
  | callRun
  /-- inside `Run()` of the socket object with this id -/
  | inRun (socket : Nat)
  /-- left the loop: the thread has ended -/
  | finished
  /-- dereferenced a null `listenSocket` -/
  | crashed
deriving DecidableEq, Repr

/-- A detached listen thread.  The lambda captures only `this`; `spawnSocket` is
bookkeeping: the id of the socket created by the `setup` call that started the
thread. -/
structure ListenThread where
  spawnSocket : Nat
  pc : ThreadPc
deriving DecidableEq, Repr

/-! ## Messages -/

/-- An argument of an `osc::ReceivedMessage` as the decode library hands it to
`ProcessMessage`: its wire type tag with the typed payload.  Floating point
payloads are carried as their IEEE-754 bit patterns (the receiver only copies
them), blobs as their bytes.  `tagOther` stands for every remaining type tag. -/
inductive ReceivedMessageArgument where
  | tagTrue
  | tagFalse
  | tagNil
  | tagInfinitum
  | tagInt32 (value : Int)
  | tagFloat (bits : Nat)
  | tagChar (value : Char)
  | tagRgbaColor (value : Nat)
  | tagMidiMessage (value : Nat)
  | tagInt64 (value : Int)
  | tagTimeTag (value : Nat)
  | tagDouble (bits : Nat)
  | tagString (value : String)
  | tagSymbol (value : String)
  | tagBlob (data : List Nat)
  | tagArrayBegin
  | tagArrayEnd
  | tagOther (tag : Char)
deriving DecidableEq, Repr

/-- An `osc::ReceivedMessage`: address pattern and arguments in wire order. -/
structure ReceivedMessage where
  AddressPattern : String
  Arguments : List ReceivedMessageArgument
deriving DecidableEq, Repr

/-- An `osc::IpEndpointName`: the sender of a datagram. -/
structure IpEndpointName where
  address : Nat
  port : Int
deriving DecidableEq, Repr

/-- Modelled from the spec: the argument classes of `ofxOscMessage` are not in
src.  An argument of a decoded message is a variant over int32, int64, float32,
float64, string, symbol, char, MIDI value, bool, trigger, timetag, blob and RGBA
colour. -/
inductive ofxOscArg where
  | int32 (value : Int)
  | int64 (value : Int)
  | float (bits : Nat)
  | double (bits : Nat)
  | string (value : String)
  | symbol (value : String)
  | char (value : Char)
  | midiMessage (value : Nat)
  | bool (value : Bool)
  | trigger
  | timetag (value : Nat)
  | blob (data : List Nat)
  | rgbaColor (value : Nat)
deriving DecidableEq, Repr

/-- The enumeration `ofxOscArgType` as far as `getParameter` compares against
it, with the value `getArgType` gives for a missing argument. -/
inductive ofxOscArgType where
  | OFXOSC_TYPE_INT32
  | OFXOSC_TYPE_INT64
  | OFXOSC_TYPE_FLOAT
  | OFXOSC_TYPE_DOUBLE
  | OFXOSC_TYPE_STRING
  | OFXOSC_TYPE_SYMBOL
  | OFXOSC_TYPE_CHAR
  | OFXOSC_TYPE_MIDI_MESSAGE
  | OFXOSC_TYPE_TRUE
  | OFXOSC_TYPE_FALSE
  | OFXOSC_TYPE_TRIGGER
  | OFXOSC_TYPE_TIMETAG
  | OFXOSC_TYPE_BLOB
  | OFXOSC_TYPE_RGBA_COLOR
  | OFXOSC_TYPE_INDEXOUTOFBOUNDS
deriving DecidableEq, Repr

/-- Modelled from the spec: `ofxOscMessage` is not in src.  A decoded message is
an address pattern, an ordered sequence of typed arguments, and the sender host
string and port. -/
structure ofxOscMessage where
  address : String
  remoteHost : String
  remotePort : Int
  args : List ofxOscArg
deriving DecidableEq, Repr

/-- Modelled from the spec: `ofThreadChannel` is not in src.  The transfer
channel is an unbounded first-in first-out sequence with append and
non-blocking pop. -/
structure ofThreadChannel (α : Type) where
  queue : List α
deriving DecidableEq, Repr

/-! ## Parameter tree -/

/-- Modelled from the spec: `ofParameter<T>` is not in src.  The value of a typed
scalar node: integer, float, double or boolean, or a node of any other type
(its type name with its value as text). -/
inductive ParamValue where
  | int (value : Int)
  | float (bits : Nat)
  | double (bits : Nat)
  | bool (value : Bool)
  | other (typeName : String) (text : String)
deriving DecidableEq, Repr

/-- What `p->type()` is compared against in `getParameter`. -/
inductive ParamType where
  | ofParameterGroup
  | ofParameterInt
  | ofParameterFloat
  | ofParameterDouble
  | ofParameterBool
  | ofParameterOther (typeName : String)
deriving DecidableEq, Repr

/-- Modelled from the spec: `ofAbstractParameter` and `ofParameterGroup` are not
in src.  A node of the property tree has an escaped name and is either a group
with children or a typed scalar. -/
inductive ofAbstractParameter where
  | group (escapedName : String) (children : List ofAbstractParameter)
  | scalar (escapedName : String) (value : ParamValue)

/-- What goes wrong in `getParameter` outside defined behaviour. -/
inductive Fault where
  /-- a read of `address[index]` in a vector of `size` elements, `size ≤ index` -/
  | outOfBounds (index : Nat) (size : Nat)
  /-- the pointer `p` does not point into the tree -/
  | danglingPointer
deriving DecidableEq, Repr

/-- Capabilities of code outside this file that the receiver calls and whose
result the specification leaves open. -/
structure Collaborators where
  /-- the host string written by `IpEndpointName::AddressAsString` -/
  AddressAsString : IpEndpointName → String
  /-- the boolean coercion of an argument, `ofxOscMessage::getArgAsBool` -/
  getArgAsBool : ofxOscMessage → Nat → Bool
  /-- the value of a scalar after `ofAbstractParameter::fromString` parsed a text -/
  fromString : ParamValue → String → ParamValue

/-! ### The decode library's view of an argument -/

namespace ReceivedMessageArgument

/-- Test `IsInt32()`. -/
def IsInt32 : ReceivedMessageArgument → Bool
  | tagInt32 _ => true
  | _ => false

/-- Test `IsInt64()`. -/
def IsInt64 : ReceivedMessageArgument → Bool
  | tagInt64 _ => true
  | _ => false

/-- Test `IsFloat()`. -/
def IsFloat : ReceivedMessageArgument → Bool
  | tagFloat _ => true
  | _ => false

/-- Test `IsDouble()`. -/
def IsDouble : ReceivedMessageArgument → Bool
  | tagDouble _ => true
  | _ => false

/-- Test `IsString()`. -/
def IsString : ReceivedMessageArgument → Bool
  | tagString _ => true
  | _ => false

/-- Test `IsSymbol()`. -/
def IsSymbol : ReceivedMessageArgument → Bool
  | tagSymbol _ => true
  | _ => false

/-- Test `IsChar()`. -/
def IsChar : ReceivedMessageArgument → Bool
  | tagChar _ => true
  | _ => false

/-- Test `IsMidiMessage()`. -/
def IsMidiMessage : ReceivedMessageArgument → Bool
  | tagMidiMessage _ => true
  | _ => false

/-- Test `IsBool()`: the tag is the true tag or the false tag. -/
def IsBool : ReceivedMessageArgument → Bool
  | tagTrue => true
  | tagFalse => true
  | _ => false

/-- Test `IsInfinitum()`. -/
def IsInfinitum : ReceivedMessageArgument → Bool
  | tagInfinitum => true
  | _ => false

/-- Test `IsTimeTag()`. -/
def IsTimeTag : ReceivedMessageArgument → Bool
  | tagTimeTag _ => true
  | _ => false

/-- Test `IsRgbaColor()`. -/
def IsRgbaColor : ReceivedMessageArgument → Bool
  | tagRgbaColor _ => true
  | _ => false

/-- Test `IsBlob()`. -/
def IsBlob : ReceivedMessageArgument → Bool
  | tagBlob _ => true
  | _ => false

/-- Accessor `AsInt32Unchecked()`; only meaningful after `IsInt32()`. -/
def AsInt32Unchecked : ReceivedMessageArgument → Int
  | tagInt32 v => v
  | _ => 0

/-- Accessor `AsInt64Unchecked()`; only meaningful after `IsInt64()`. -/
def AsInt64Unchecked : ReceivedMessageArgument → Int
  | tagInt64 v => v
  | _ => 0

/-- Accessor `AsFloatUnchecked()`; only meaningful after `IsFloat()`. -/
def AsFloatUnchecked : ReceivedMessageArgument → Nat
  | tagFloat v => v
  | _ => 0

/-- Accessor `AsDoubleUnchecked()`; only meaningful after `IsDouble()`. -/
def AsDoubleUnchecked : ReceivedMessageArgument → Nat
  | tagDouble v => v
  | _ => 0

/-- Accessor `AsStringUnchecked()`; only meaningful after `IsString()`. -/
def AsStringUnchecked : ReceivedMessageArgument → String
  | tagString v => v
  | _ => ""

/-- Accessor `AsSymbolUnchecked()`; only meaningful after `IsSymbol()`. -/
def AsSymbolUnchecked : ReceivedMessageArgument → String
  | tagSymbol v => v
  | _ => ""

/-- Accessor `AsCharUnchecked()`; only meaningful after `IsChar()`. -/
def AsCharUnchecked : ReceivedMessageArgument → Char
  | tagChar v => v
  | _ => Char.ofNat 0

/-- Accessor `AsMidiMessageUnchecked()`; only meaningful after `IsMidiMessage()`. -/
def AsMidiMessageUnchecked : ReceivedMessageArgument → Nat
  | tagMidiMessage v => v
  | _ => 0

/-- Accessor `AsBoolUnchecked()`: true exactly for the true tag. -/
def AsBoolUnchecked : ReceivedMessageArgument → Bool
  | tagTrue => true
  | _ => false

/-- Accessor `AsTimeTagUnchecked()`; only meaningful after `IsTimeTag()`. -/
def AsTimeTagUnchecked : ReceivedMessageArgument → Nat
  | tagTimeTag v => v
  | _ => 0

/-- Accessor `AsRgbaColorUnchecked()`; only meaningful after `IsRgbaColor()`. -/
def AsRgbaColorUnchecked : ReceivedMessageArgument → Nat
  | tagRgbaColor v => v
  | _ => 0

/-- Accessor `AsBlobUnchecked(data, len)`: the bytes and their number. -/
def AsBlobUnchecked : ReceivedMessageArgument → List Nat × Nat
  | tagBlob data => (data, data.length)
  | _ => ([], 0)

end ReceivedMessageArgument

/-- Constructor `ofBuffer(const char*, size)`: a copy of the first `size` bytes. -/
def ofBuffer (dataPtr : List Nat) (len : Nat) : List Nat :=
  dataPtr.take len

/-! ### Decoded messages and the channel (modelled from the spec) -/

namespace ofxOscArg

/-- Modelled from the spec: the type of an argument as `getArgType` reports it;
a bool argument reports true or false by its value. -/
def getType : ofxOscArg → ofxOscArgType
  | int32 _ => ofxOscArgType.OFXOSC_TYPE_INT32
  | int64 _ => ofxOscArgType.OFXOSC_TYPE_INT64
  | float _ => ofxOscArgType.OFXOSC_TYPE_FLOAT
  | double _ => ofxOscArgType.OFXOSC_TYPE_DOUBLE
  | string _ => ofxOscArgType.OFXOSC_TYPE_STRING
  | symbol _ => ofxOscArgType.OFXOSC_TYPE_SYMBOL
  | char _ => ofxOscArgType.OFXOSC_TYPE_CHAR
  | midiMessage _ => ofxOscArgType.OFXOSC_TYPE_MIDI_MESSAGE
  | bool true => ofxOscArgType.OFXOSC_TYPE_TRUE
  | bool false => ofxOscArgType.OFXOSC_TYPE_FALSE
  | trigger => ofxOscArgType.OFXOSC_TYPE_TRIGGER
  | timetag _ => ofxOscArgType.OFXOSC_TYPE_TIMETAG
  | blob _ => ofxOscArgType.OFXOSC_TYPE_BLOB
  | rgbaColor _ => ofxOscArgType.OFXOSC_TYPE_RGBA_COLOR

end ofxOscArg

namespace ofxOscMessage

/-- Modelled from the spec: a default-constructed `ofxOscMessage` (not in src):
no address, no sender, no arguments. -/
def new : ofxOscMessage :=
  { address := "", remoteHost := "", remotePort := 0, args := [] }

/-- Modelled from the spec: `setAddress` (not in src) stores the address
pattern. -/
def setAddress (msg : ofxOscMessage) (address : String) : ofxOscMessage :=
  { msg with address := address }

/-- Modelled from the spec: `setRemoteEndpoint` (not in src) stores the sender
host string and port. -/
def setRemoteEndpoint (msg : ofxOscMessage) (host : String) (port : Int) : ofxOscMessage :=
  { msg with remoteHost := host, remotePort := port }

/-- Modelled from the spec: the `add...Arg` functions (not in src) append one
typed argument to the ordered argument sequence. -/
def addArg (msg : ofxOscMessage) (arg : ofxOscArg) : ofxOscMessage :=
  { msg with args := msg.args ++ [arg] }

/-- Function `addIntArg`, see `addArg`. -/
def addIntArg (msg : ofxOscMessage) (v : Int) : ofxOscMessage := msg.addArg (ofxOscArg.int32 v)

/-- Function `addInt64Arg`, see `addArg`. -/
def addInt64Arg (msg : ofxOscMessage) (v : Int) : ofxOscMessage := msg.addArg (ofxOscArg.int64 v)

/-- Function `addFloatArg`, see `addArg`. -/
def addFloatArg (msg : ofxOscMessage) (v : Nat) : ofxOscMessage := msg.addArg (ofxOscArg.float v)

/-- Function `addDoubleArg`, see `addArg`. -/
def addDoubleArg (msg : ofxOscMessage) (v : Nat) : ofxOscMessage := msg.addArg (ofxOscArg.double v)

/-- Function `addStringArg`, see `addArg`. -/
def addStringArg (msg : ofxOscMessage) (v : String) : ofxOscMessage :=
  msg.addArg (ofxOscArg.string v)

/-- Function `addSymbolArg`, see `addArg`. -/
def addSymbolArg (msg : ofxOscMessage) (v : String) : ofxOscMessage :=
  msg.addArg (ofxOscArg.symbol v)

/-- Function `addCharArg`, see `addArg`. -/
def addCharArg (msg : ofxOscMessage) (v : Char) : ofxOscMessage := msg.addArg (ofxOscArg.char v)

/-- Function `addMidiMessageArg`, see `addArg`. -/
def addMidiMessageArg (msg : ofxOscMessage) (v : Nat) : ofxOscMessage :=
  msg.addArg (ofxOscArg.midiMessage v)

/-- Function `addBoolArg`, see `addArg`. -/
def addBoolArg (msg : ofxOscMessage) (v : Bool) : ofxOscMessage := msg.addArg (ofxOscArg.bool v)

/-- Function `addTriggerArg`, see `addArg`. -/
def addTriggerArg (msg : ofxOscMessage) : ofxOscMessage := msg.addArg ofxOscArg.trigger

/-- Function `addTimetagArg`, see `addArg`. -/
def addTimetagArg (msg : ofxOscMessage) (v : Nat) : ofxOscMessage :=
  msg.addArg (ofxOscArg.timetag v)

/-- Function `addRgbaColorArg`, see `addArg`. -/
def addRgbaColorArg (msg : ofxOscMessage) (v : Nat) : ofxOscMessage :=
  msg.addArg (ofxOscArg.rgbaColor v)

/-- Function `addBlobArg`, see `addArg`. -/
def addBlobArg (msg : ofxOscMessage) (buffer : List Nat) : ofxOscMessage :=
  msg.addArg (ofxOscArg.blob buffer)

/-- Function `getAddress`. -/
def getAddress (msg : ofxOscMessage) : String := msg.address

/-- Modelled from the spec: `getArgType` (not in src) gives the type of the
argument at `index`, and the out-of-range value when there is none. -/
def getArgType (msg : ofxOscMessage) (index : Nat) : ofxOscArgType :=
  match msg.args.get? index with
  | some arg => arg.getType
  | none => ofxOscArgType.OFXOSC_TYPE_INDEXOUTOFBOUNDS

/-- Modelled from the spec: `getArgAsInt32` (not in src) on an int32 argument is
its value; `getParameter` calls it on no other type. -/
def getArgAsInt32 (msg : ofxOscMessage) (index : Nat) : Int :=
  match msg.args.get? index with
  | some (ofxOscArg.int32 v) => v
  | _ => 0

/-- Modelled from the spec: `getArgAsFloat` (not in src) on a float32 argument
is its value; `getParameter` calls it on no other type. -/
def getArgAsFloat (msg : ofxOscMessage) (index : Nat) : Nat :=
  match msg.args.get? index with
  | some (ofxOscArg.float v) => v
  | _ => 0

/-- Modelled from the spec: `getArgAsDouble` (not in src) on a float64 argument
is its value; `getParameter` calls it on no other type. -/
def getArgAsDouble (msg : ofxOscMessage) (index : Nat) : Nat :=
  match msg.args.get? index with
  | some (ofxOscArg.double v) => v
  | _ => 0

/-- Modelled from the spec: `getArgAsString` (not in src) on a string argument
is its text; `getParameter` calls it on no other type. -/
def getArgAsString (msg : ofxOscMessage) (index : Nat) : String :=
  match msg.args.get? index with
  | some (ofxOscArg.string v) => v
  | _ => ""

end ofxOscMessage

namespace ofThreadChannel

/-- Modelled from the spec: `send` appends at the back. -/
def send {α : Type} (ch : ofThreadChannel α) (value : α) : ofThreadChannel α :=
  ⟨ch.queue ++ [value]⟩

/-- Modelled from the spec: `tryReceive(sentValue)` is the non-blocking pop: on
an empty channel it returns false and leaves `sentValue`; otherwise it returns
true with the front element in `sentValue`. -/
def tryReceive {α : Type} (ch : ofThreadChannel α) (sentValue : α) :
    Bool × α × ofThreadChannel α :=
  match ch.queue with
  | [] => (false, sentValue, ch)
  | front :: rest => (true, front, ⟨rest⟩)

/-- Modelled from the spec: `empty()` says whether nothing is queued. -/
def empty {α : Type} (ch : ofThreadChannel α) : Bool :=
  ch.queue.isEmpty

end ofThreadChannel

/-- Modelled from the spec: `ofSplitString(source, delimiter, ignoreEmpty)` is
not in src.  It cuts a slash-delimited path into its segments; `acc` is the
segment being read.  With `ignoreEmpty` empty segments are left out. -/
def splitChars (delimiter : Char) (ignoreEmpty : Bool) : List Char → List Char → List String
  | [], acc => if ignoreEmpty && acc.isEmpty then [] else [String.mk acc]
  | c :: cs, acc =>
    if c = delimiter then
      if ignoreEmpty && acc.isEmpty then splitChars delimiter ignoreEmpty cs []
      else String.mk acc :: splitChars delimiter ignoreEmpty cs []
    else splitChars delimiter ignoreEmpty cs (acc ++ [c])

/-- Modelled from the spec: see `splitChars`. -/
def ofSplitString (source : String) (delimiter : Char) (ignoreEmpty : Bool) : List String :=
  splitChars delimiter ignoreEmpty source.data []

/-! ### Parameter tree operations (modelled from the spec) -/

namespace ParamValue

/-- The `type()` of a scalar node holding this value. -/
def type : ParamValue → ParamType
  | int _ => ParamType.ofParameterInt
  | float _ => ParamType.ofParameterFloat
  | double _ => ParamType.ofParameterDouble
  | bool _ => ParamType.ofParameterBool
  | other typeName _ => ParamType.ofParameterOther typeName

end ParamValue

namespace ofAbstractParameter

/-- Function `getEscapedName()`. -/
def getEscapedName : ofAbstractParameter → String
  | group escapedName _ => escapedName
  | scalar escapedName _ => escapedName

/-- Function `type()`. -/
def type : ofAbstractParameter → ParamType
  | group _ _ => ParamType.ofParameterGroup
  | scalar _ value => value.type

/-- Name lookup by escaped-name equality among the children of a group: the
position of the first child with that name, and the child. -/
def findChild (name : String) : List ofAbstractParameter → Option (Nat × ofAbstractParameter)
  | [] => none
  | child :: rest =>
    if child.getEscapedName = name then some (0, child)
    else (findChild name rest).map (fun kc => (kc.1 + 1, kc.2))

/-- Children of a node (none for a scalar). -/
def children : ofAbstractParameter → List ofAbstractParameter
  | group _ cs => cs
  | scalar _ _ => []

/-- Function `ofParameterGroup::contains(name)`. -/
def contains (g : ofAbstractParameter) (name : String) : Bool :=
  (findChild name g.children).isSome

/-- The node a pointer designates: a pointer into the tree is the list of child
positions leading from the root to the node. -/
def deref : ofAbstractParameter → List Nat → Option ofAbstractParameter
  | node, [] => some node
  | group _ cs, k :: ks =>
    match cs.get? k with
    | some child => deref child ks
    | none => none
  | scalar _ _, _ :: _ => none

/-- Assignment through a pointer to a scalar node, `p->cast<T>() = v` or
`p->fromString(s)`: the node takes the value, nothing else changes. -/
def assign : ofAbstractParameter → List Nat → ParamValue → ofAbstractParameter
  | scalar escapedName _, [], v => scalar escapedName v
  | group escapedName cs, [], _ => group escapedName cs
  | group escapedName cs, k :: ks, v =>
    match cs.get? k with
    | some child => group escapedName (cs.set k (assign child ks v))
    | none => group escapedName cs
  | scalar escapedName value, _ :: _, _ => scalar escapedName value

/-- Name and value of the scalar node at a position, if there is one. -/
def scalarAt (root : ofAbstractParameter) (path : List Nat) : Option (String × ParamValue) :=
  match deref root path with
  | some (scalar escapedName value) => some (escapedName, value)
  | _ => none

end ofAbstractParameter

end ofxOsc

/-- The members of `ofxOscReceiver` (`allowReuse`, `port`, `listenSocket`,
`messagesChannel`; the handle `listenThread` is detached at once and the threads
are kept in `threads`), followed by the process state its member functions
touch: the static UDP buffer size of `osc::UdpSocket`, the allocation counter
for socket objects, the detached listen threads (thread `t` is `threads[t]`),
and the event history. -/
structure ofxOscReceiver where
  allowReuse : Bool
  port : Int
  listenSocket : Option ofxOsc.UdpListeningReceiveSocket
  messagesChannel : ofxOsc.ofThreadChannel ofxOsc.ofxOscMessage
  udpBufferSize : Nat
  nextSocket : Nat
  threads : List ofxOsc.ListenThread
  trace : List ofxOsc.Event
deriving DecidableEq, Repr

namespace ofxOscReceiver

open ofxOsc

/-- Constructor `ofxOscReceiver() : allowReuse(true), port(0) {}` in a process
that has allocated no socket yet. -/
def new : ofxOscReceiver :=
  { allowReuse := true, port := 0, listenSocket := none, messagesChannel := ⟨[]⟩,
    udpBufferSize := 0, nextSocket := 0, threads := [], trace := [] }

/-- The custom deleter of `listenSocket`, run by `unique_ptr::reset` and by move
assignment when the pointer is not null: `socket->Break(); delete socket;`. -/
def deleter (sock : UdpListeningReceiveSocket) : List Event :=
  [Event.breakSignalled sock.id, Event.deleted sock.id]

/-- Events of releasing whatever a `unique_ptr` currently owns. -/
def release : Option UdpListeningReceiveSocket → List Event
  | none => []
  | some sock => deleter sock

/-- Member function `clear`: `listenSocket.reset(); port = 0;`. -/
def clear (r : ofxOscReceiver) : ofxOscReceiver :=
  { r with listenSocket := none, port := 0, trace := r.trace ++ release r.listenSocket }

/-- Member function `setup(int port)`.  The parameter `port` shadows the member;
`ok` says whether the socket constructor returns (`true`) or throws (`false`). -/
def setup (ok : Bool) (port : Int) (r : ofxOscReceiver) : Bool × ofxOscReceiver :=
  -- if(GetUdpBufferSize() == 0) SetUdpBufferSize(65535);
  let r1 := if r.udpBufferSize = 0 then { r with udpBufferSize := 65535 } else r
  -- if(listenSocket) clear();
  let r2 := if r1.listenSocket.isSome then r1.clear else r1
  if ok then
    -- socket = new UdpListeningReceiveSocket(IpEndpointName(ANY_ADDRESS, port), this, allowReuse);
    let sock : UdpListeningReceiveSocket :=
      { id := r2.nextSocket, port := port, allowReuse := r2.allowReuse }
    -- listenSocket = std::move(newPtr);
    let r3 := { r2 with
      nextSocket := r2.nextSocket + 1
      trace := r2.trace ++ [Event.created sock] ++ release r2.listenSocket
      listenSocket := some sock }
    -- listenThread = std::thread([this]{...}); listenThread.detach();
    let r4 := { r3 with
      threads := r3.threads ++ [ListenThread.mk sock.id ThreadPc.loopTest]
      trace := r3.trace ++ [Event.spawned r3.threads.length] }
    -- this->port = port; return true;
    (true, { r4 with port := port })
  else
    -- catch(std::exception &e){ ofLogError(...); ...; return false; }
    (false, { r2 with trace := r2.trace ++ [Event.createFailed port r2.allowReuse] })

/-- Member function `copy(const ofxOscReceiver& other)`.  `sameObject` is the
test `this == &other`. -/
def copy (ok : Bool) (sameObject : Bool) (r : ofxOscReceiver) (other : ofxOscReceiver) :
    ofxOscReceiver :=
  if sameObject then r
  else
    let r1 := { r with allowReuse := other.allowReuse, port := other.port }
    if other.listenSocket.isSome then (setup ok r1.port r1).2 else r1

/-- Member function `getPort`. -/
def getPort (r : ofxOscReceiver) : Int := r.port

/-- Member function `disableReuse`. -/
def disableReuse (ok : Bool) (r : ofxOscReceiver) : ofxOscReceiver :=
  let r1 := { r with allowReuse := false }
  if r1.listenSocket.isSome then (setup ok r1.port r1).2 else r1

/-- Member function `enableReuse`. -/
def enableReuse (ok : Bool) (r : ofxOscReceiver) : ofxOscReceiver :=
  let r1 := { r with allowReuse := true }
  if r1.listenSocket.isSome then (setup ok r1.port r1).2 else r1

/-! ### Message hand-off -/

/-- Member function `hasWaitingMessages`: `!messagesChannel.empty()`. -/
def hasWaitingMessages (r : ofxOscReceiver) : Bool :=
  !r.messagesChannel.empty

/-- Member function `getNextMessage(ofxOscMessage & message)`:
`messagesChannel.tryReceive(message)`.  Returns the result, the caller's
`message` afterwards, and the receiver. -/
def getNextMessage (message : ofxOscMessage) (r : ofxOscReceiver) :
    Bool × ofxOscMessage × ofxOscReceiver :=
  let res := r.messagesChannel.tryReceive message
  (res.1, res.2.1, { r with messagesChannel := res.2.2 })

/-- One round of the argument loop of `ProcessMessage`: the chain of type tests
on `arg`, first match wins; the last branch only logs. -/
def transferArgument (msg : ofxOscMessage) (arg : ReceivedMessageArgument) : ofxOscMessage :=
  if arg.IsInt32 then msg.addIntArg arg.AsInt32Unchecked
  else if arg.IsInt64 then msg.addInt64Arg arg.AsInt64Unchecked
  else if arg.IsFloat then msg.addFloatArg arg.AsFloatUnchecked
  else if arg.IsDouble then msg.addDoubleArg arg.AsDoubleUnchecked
  else if arg.IsString then msg.addStringArg arg.AsStringUnchecked
  else if arg.IsSymbol then msg.addSymbolArg arg.AsSymbolUnchecked
  else if arg.IsChar then msg.addCharArg arg.AsCharUnchecked
  else if arg.IsMidiMessage then msg.addMidiMessageArg arg.AsMidiMessageUnchecked
  else if arg.IsBool then msg.addBoolArg arg.AsBoolUnchecked
  else if arg.IsInfinitum then msg.addTriggerArg
  else if arg.IsTimeTag then msg.addTimetagArg arg.AsTimeTagUnchecked
  else if arg.IsRgbaColor then msg.addRgbaColorArg arg.AsRgbaColorUnchecked
  else if arg.IsBlob then
    let blob := arg.AsBlobUnchecked
    let buffer := ofBuffer blob.1 blob.2
    msg.addBlobArg buffer
  else msg

/-- Member function `ProcessMessage(m, remoteEndpoint)`. -/
def ProcessMessage (c : Collaborators) (m : ReceivedMessage) (remoteEndpoint : IpEndpointName)
    (r : ofxOscReceiver) : ofxOscReceiver :=
  let msg := ofxOscMessage.new
  -- msg.setAddress(m.AddressPattern());
  let msg := msg.setAddress m.AddressPattern
  -- remoteEndpoint.AddressAsString(endpointHost); msg.setRemoteEndpoint(endpointHost, port);
  let endpointHost := c.AddressAsString remoteEndpoint
  let msg := msg.setRemoteEndpoint endpointHost remoteEndpoint.port
  -- for(arg = m.ArgumentsBegin(); arg != m.ArgumentsEnd(); ++arg)
  let msg := m.Arguments.foldl transferArgument msg
  -- messagesChannel.send(std::move(msg));
  { r with messagesChannel := r.messagesChannel.send msg }

/-- The decode table of the specification: the decoded argument of each wire
type it lists, nothing for any other wire type. -/
def decodeTable : ReceivedMessageArgument → Option ofxOscArg
  | ReceivedMessageArgument.tagInt32 v => some (ofxOscArg.int32 v)
  | ReceivedMessageArgument.tagInt64 v => some (ofxOscArg.int64 v)
  | ReceivedMessageArgument.tagFloat v => some (ofxOscArg.float v)
  | ReceivedMessageArgument.tagDouble v => some (ofxOscArg.double v)
  | ReceivedMessageArgument.tagString v => some (ofxOscArg.string v)
  | ReceivedMessageArgument.tagSymbol v => some (ofxOscArg.symbol v)
  | ReceivedMessageArgument.tagChar v => some (ofxOscArg.char v)
  | ReceivedMessageArgument.tagMidiMessage v => some (ofxOscArg.midiMessage v)
  | ReceivedMessageArgument.tagTrue => some (ofxOscArg.bool true)
  | ReceivedMessageArgument.tagFalse => some (ofxOscArg.bool false)
  | ReceivedMessageArgument.tagInfinitum => some ofxOscArg.trigger
  | ReceivedMessageArgument.tagTimeTag v => some (ofxOscArg.timetag v)
  | ReceivedMessageArgument.tagRgbaColor v => some (ofxOscArg.rgbaColor v)
  | ReceivedMessageArgument.tagBlob data => some (ofxOscArg.blob data)
  | ReceivedMessageArgument.tagNil => none
  | ReceivedMessageArgument.tagArrayBegin => none
  | ReceivedMessageArgument.tagArrayEnd => none
  | ReceivedMessageArgument.tagOther _ => none

/-- The decoded message of the specification for a received message and its
sender. -/
def decoded (c : Collaborators) (m : ReceivedMessage) (remoteEndpoint : IpEndpointName) :
    ofxOscMessage :=
  { address := m.AddressPattern
    remoteHost := c.AddressAsString remoteEndpoint
    remotePort := remoteEndpoint.port
    args := m.Arguments.filterMap decodeTable }

/-- The receive thread handling datagrams one after the other: `ProcessMessage`
on each, in arrival order. -/
def processAll (c : Collaborators) (arrivals : List (ReceivedMessage × IpEndpointName))
    (r : ofxOscReceiver) : ofxOscReceiver :=
  arrivals.foldl (fun acc a => ProcessMessage c a.1 a.2 acc) r

/-- The consumer calling `getNextMessage(message)` `n` times in a row with the
same variable `message`: the results and the variable after each call, then the
receiver. -/
def getNextMessages : Nat → ofxOscMessage → ofxOscReceiver →
    List (Bool × ofxOscMessage) × ofxOscReceiver
  | 0, _, r => ([], r)
  | n + 1, message, r =>
    let res := getNextMessage message r
    let later := getNextMessages n res.2.1 res.2.2
    ((res.1, res.2.1) :: later.1, later.2)

/-! ### Parameter binding -/

/-- Loop state of `getParameter` for one message: the tree under `parameter`
and the pointer `p` (`none` is `nullptr`, `some path` points to the node at
`path` below the root). -/
structure Cursor where
  tree : ofAbstractParameter
  p : Option (List Nat)

/-- Body of `for(unsigned int i = 0; i < address.size(); i++)` in
`getParameter`.  The index is a natural number: an address comes from one UDP
datagram, so `i + 1` stays far below `2^32`. -/
def loopBody (c : Collaborators) (msg : ofxOscMessage) (address : List String) (i : Nat)
    (st : Cursor) : Except Fault Cursor :=
  match st.p with
  | none => pure st
  | some path =>
    match st.tree.deref path with
    | none => throw Fault.danglingPointer
    | some node =>
      match address.get? i with
      | none => throw (Fault.outOfBounds i address.length)
      | some segment =>
        if segment = node.getEscapedName then
          if node.type = ParamType.ofParameterGroup then
            if address.length ≥ i + 1 then
              match address.get? (i + 1) with
              | none => throw (Fault.outOfBounds (i + 1) address.length)
              | some next =>
                match ofAbstractParameter.findChild next node.children with
                | some kc => pure { st with p := some (path ++ [kc.1]) }
                | none => pure { st with p := none }
            else pure st
          else if node.type = ParamType.ofParameterInt ∧
              msg.getArgType 0 = ofxOscArgType.OFXOSC_TYPE_INT32 then
            pure { st with tree := st.tree.assign path (ParamValue.int (msg.getArgAsInt32 0)) }
          else if node.type = ParamType.ofParameterFloat ∧
              msg.getArgType 0 = ofxOscArgType.OFXOSC_TYPE_FLOAT then
            pure { st with tree := st.tree.assign path (ParamValue.float (msg.getArgAsFloat 0)) }
          else if node.type = ParamType.ofParameterDouble ∧
              msg.getArgType 0 = ofxOscArgType.OFXOSC_TYPE_DOUBLE then
            pure { st with tree := st.tree.assign path (ParamValue.double (msg.getArgAsDouble 0)) }
          else if node.type = ParamType.ofParameterBool ∧
              (msg.getArgType 0 = ofxOscArgType.OFXOSC_TYPE_TRUE ∨
               msg.getArgType 0 = ofxOscArgType.OFXOSC_TYPE_FALSE ∨
               msg.getArgType 0 = ofxOscArgType.OFXOSC_TYPE_INT32 ∨
               msg.getArgType 0 = ofxOscArgType.OFXOSC_TYPE_INT64 ∨
               msg.getArgType 0 = ofxOscArgType.OFXOSC_TYPE_FLOAT ∨
               msg.getArgType 0 = ofxOscArgType.OFXOSC_TYPE_DOUBLE ∨
               msg.getArgType 0 = ofxOscArgType.OFXOSC_TYPE_STRING ∨
               msg.getArgType 0 = ofxOscArgType.OFXOSC_TYPE_SYMBOL) then
            pure { st with tree := st.tree.assign path (ParamValue.bool (c.getArgAsBool msg 0)) }
          else if msg.getArgType 0 = ofxOscArgType.OFXOSC_TYPE_STRING then
            match node with
            | ofAbstractParameter.scalar _ value =>
              pure { st with
                tree := st.tree.assign path (c.fromString value (msg.getArgAsString 0)) }
            | ofAbstractParameter.group _ _ => pure st
          else pure st
        else pure st

/-- What `getParameter` does with one message taken from the channel: split the
address, start with `p = &parameter`, run the loop over `i`. -/
def bindMessage (c : Collaborators) (parameter : ofAbstractParameter) (msg : ofxOscMessage) :
    Except Fault ofAbstractParameter :=
  let address := ofSplitString msg.getAddress '/' true
  ((List.range address.length).foldlM (fun st i => loopBody c msg address i st)
    { tree := parameter, p := some [] }).map (fun st => st.tree)

/-- The loop `while(messagesChannel.tryReceive(msg))` of `getParameter` on the
queued messages: `tryReceive` fails on the empty queue and ends the loop,
otherwise it hands over the front message and the body runs on it. -/
def drain (c : Collaborators) : ofAbstractParameter → List ofxOscMessage →
    Except Fault ofAbstractParameter
  | parameter, [] => pure parameter
  | parameter, msg :: rest =>
    match bindMessage c parameter msg with
    | Except.ok parameter1 => drain c parameter1 rest
    | Except.error e => Except.error e

/-- Member function `getParameter(ofAbstractParameter & parameter)`: the result
(always true), the tree afterwards and the receiver with its channel emptied,
or the fault that ends defined behaviour. -/
def getParameter (c : Collaborators) (parameter : ofAbstractParameter) (r : ofxOscReceiver) :
    Except Fault (Bool × ofAbstractParameter × ofxOscReceiver) :=
  (drain c parameter r.messagesChannel.queue).map
    (fun tree => (true, tree, { r with messagesChannel := ⟨[]⟩ }))

/-! ### The binding rules of the specification -/

/-- How an address relates to the tree when read segment by segment. -/
inductive Resolution where
  /-- every segment matched and the node reached is the scalar at `path` -/
  | terminal (path : List Nat) (escapedName : String) (value : ParamValue)
  /-- every segment matched and the node reached is a group -/
  | endsAtGroup (path : List Nat)
  /-- the address has no segment -/
  | noSegment
  /-- the first segment is not the escaped name of the root -/
  | unmatchedRoot
  /-- a segment does not name a child of the group reached so far -/
  | unmatchedChild (path : List Nat)
  /-- segments are left over after a scalar was reached -/
  | beyondScalar (path : List Nat)
deriving DecidableEq, Repr

/-- Follow the segments after the one that matched `node` (found at `path`):
each names a child of the group reached so far. -/
def resolveFrom : ofAbstractParameter → List Nat → List String → Resolution
  | ofAbstractParameter.scalar escapedName value, path, [] =>
    Resolution.terminal path escapedName value
  | ofAbstractParameter.group _ _, path, [] => Resolution.endsAtGroup path
  | ofAbstractParameter.scalar _ _, path, _ :: _ => Resolution.beyondScalar path
  | ofAbstractParameter.group _ cs, path, segment :: rest =>
    match ofAbstractParameter.findChild segment cs with
    | some kc => resolveFrom kc.2 (path ++ [kc.1]) rest
    | none => Resolution.unmatchedChild path

/-- Resolve an address from the root: the first segment equals the root's
escaped name, each following segment names a child of the group reached. -/
def resolve (root : ofAbstractParameter) : List String → Resolution
  | [] => Resolution.noSegment
  | segment :: rest =>
    if segment = root.getEscapedName then resolveFrom root [] rest
    else Resolution.unmatchedRoot

/-- The assignment table of the specification: the new value of a scalar node
holding `value` for the first argument of `msg`, or `none` when no assignment is
made. -/
def specAssign (c : Collaborators) (value : ParamValue) (msg : ofxOscMessage) :
    Option ParamValue :=
  match value, msg.args.head? with
  | ParamValue.int _, some (ofxOscArg.int32 v) => some (ParamValue.int v)
  | ParamValue.float _, some (ofxOscArg.float v) => some (ParamValue.float v)
  | ParamValue.double _, some (ofxOscArg.double v) => some (ParamValue.double v)
  | ParamValue.bool _, some (ofxOscArg.bool _) => some (ParamValue.bool (c.getArgAsBool msg 0))
  | ParamValue.bool _, some (ofxOscArg.int32 _) => some (ParamValue.bool (c.getArgAsBool msg 0))
  | ParamValue.bool _, some (ofxOscArg.int64 _) => some (ParamValue.bool (c.getArgAsBool msg 0))
  | ParamValue.bool _, some (ofxOscArg.float _) => some (ParamValue.bool (c.getArgAsBool msg 0))
  | ParamValue.bool _, some (ofxOscArg.double _) => some (ParamValue.bool (c.getArgAsBool msg 0))
  | ParamValue.bool _, some (ofxOscArg.string _) => some (ParamValue.bool (c.getArgAsBool msg 0))
  | ParamValue.bool _, some (ofxOscArg.symbol _) => some (ParamValue.bool (c.getArgAsBool msg 0))
  | held, some (ofxOscArg.string s) => some (c.fromString held s)
  | _, _ => none

/-- The tree the specification asks for after a message whose address resolves
to the scalar at `path` holding `value`. -/
def specBind (c : Collaborators) (root : ofAbstractParameter) (path : List Nat)
    (value : ParamValue) (msg : ofxOscMessage) : ofAbstractParameter :=
  match specAssign c value msg with
  | some v => root.assign path v
  | none => root

/-- Effect of one event on the list of live socket objects: a constructor that
returned adds its object, `delete` removes it. -/
def liveStep (live : List Nat) : Event → List Nat
  | Event.created sock => live ++ [sock.id]
  | Event.deleted id => live.filter (fun x => decide (x ≠ id))
  | _ => live

/-- Ids of the socket objects that are live (constructed and not yet deleted)
after a history of events. -/
def liveSockets (es : List Event) : List Nat :=
  es.foldl liveStep []

/-- A constructor event carries an object id below the allocation counter `n`;
every other event passes. -/
def createdBelow (n : Nat) : Event → Bool
  | Event.created sock => decide (sock.id < n)
  | _ => true

/-- The history agrees with the handle: the live socket objects are exactly the
one `listenSocket` owns (none if it is null), and the ids of the objects
constructed so far are below the allocation counter. -/
def Consistent (r : ofxOscReceiver) : Prop :=
  liveSockets r.trace = (r.listenSocket.map (fun s => s.id)).toList ∧
  ∀ e ∈ r.trace, createdBelow r.nextSocket e = true

/-! ### Interleaving consumer calls with listen-thread steps -/

/-- One step of listen thread `t`, reading the member `listenSocket` of the
receiver the lambda captured through `this`. -/
def threadStep (t : Nat) (r : ofxOscReceiver) : ofxOscReceiver :=
  match r.threads.get? t with
  | none => r
  | some th =>
    match th.pc with
    | ThreadPc.loopTest =>
      -- while(listenSocket)
      if r.listenSocket.isSome then
        { r with threads := r.threads.set t { th with pc := ThreadPc.callRun } }
      else
        { r with threads := r.threads.set t { th with pc := ThreadPc.finished } }
    | ThreadPc.callRun =>
      -- listenSocket->Run();
      match r.listenSocket with
      | some sock =>
        { r with
          threads := r.threads.set t { th with pc := ThreadPc.inRun sock.id }
          trace := r.trace ++ [Event.run t sock.id] }
      | none =>
        { r with
          threads := r.threads.set t { th with pc := ThreadPc.crashed }
          trace := r.trace ++ [Event.nullDeref t] }
    | ThreadPc.inRun _ =>
      -- Run() returned (after Break) or threw and the exception was caught
      { r with threads := r.threads.set t { th with pc := ThreadPc.loopTest } }
    | ThreadPc.finished => r
    | ThreadPc.crashed => r

/-- What can happen next: a consumer-side call (with the outcome of the socket
constructor where one may run) or a step of one listen thread. -/
inductive Action where
  | setup (ok : Bool) (port : Int)
  | clear
  | enableReuse (ok : Bool)
  | disableReuse (ok : Bool)
  | thread (t : Nat)
deriving DecidableEq, Repr

/-- Effect of one action. -/
def step (r : ofxOscReceiver) : Action → ofxOscReceiver
  | Action.setup ok port => (r.setup ok port).2
  | Action.clear => r.clear
  | Action.enableReuse ok => r.enableReuse ok
  | Action.disableReuse ok => r.disableReuse ok
  | Action.thread t => threadStep t r

/-- Run a schedule of actions from a state. -/
def exec (r : ofxOscReceiver) (schedule : List Action) : ofxOscReceiver :=
  schedule.foldl step r

/-- An event respects thread ownership: a `Run()` call by thread `t` is on the
socket created by the `setup` call that spawned `t`. -/
def ownRun (threads : List ListenThread) : Event → Bool
  | Event.run t socket =>
    match threads.get? t with
    | some th => decide (th.spawnSocket = socket)
    | none => false
  | _ => true

/-- Every `Run()` call in the history was made by a thread on the socket of its
own `setup` call. -/
def RunsOwnSocket (r : ofxOscReceiver) : Prop :=
  ∀ e ∈ r.trace, ownRun r.threads e = true

/-- States a receiver can be in: freshly constructed, then any sequence of
`setup`, `clear`, `enableReuse`, `disableReuse` and copy-assignment from another
reachable receiver, the socket constructor free to return or throw each time. -/
inductive Reachable : ofxOscReceiver → Prop where
  | fresh : Reachable ofxOscReceiver.new
  | setup (ok : Bool) (port : Int) {r : ofxOscReceiver} :
      Reachable r → Reachable (r.setup ok port).2
  | clear {r : ofxOscReceiver} : Reachable r → Reachable r.clear
  | enableReuse (ok : Bool) {r : ofxOscReceiver} : Reachable r → Reachable (r.enableReuse ok)
  | disableReuse (ok : Bool) {r : ofxOscReceiver} : Reachable r → Reachable (r.disableReuse ok)
  | copy (ok : Bool) (sameObject : Bool) {other r : ofxOscReceiver} :
      Reachable other → Reachable r → Reachable (r.copy ok sameObject other)

/-! ### Example data -/

/-- A receiver that listens on port 9000 with address reuse disabled:
`disableReuse()` then `setup(9000)` on a fresh receiver. -/
def exclusiveListener : ofxOscReceiver :=
  ((ofxOscReceiver.new.disableReuse true).setup true 9000).2

/-- A tree with the float node `gain` (0.0) at "/synth/gain", next to the integer
node `freq`. -/
def synthTree : ofAbstractParameter :=
  ofAbstractParameter.group "synth"
    [ofAbstractParameter.scalar "freq" (ParamValue.int 440),
     ofAbstractParameter.scalar "gain" (ParamValue.float 0)]

/-- The tree `synthTree` with `gain` set to 0.5 (bit pattern `0x3F000000`). -/
def tunedTree : ofAbstractParameter :=
  ofAbstractParameter.group "synth"
    [ofAbstractParameter.scalar "freq" (ParamValue.int 440),
     ofAbstractParameter.scalar "gain" (ParamValue.float 1056964608)]

/-- A decoded message to `address` carrying the float32 argument 0.5. -/
def halfTo (address : String) : ofxOscMessage :=
  { address := address, remoteHost := "10.0.0.7", remotePort := 7000,
    args := [ofxOscArg.float 1056964608] }

/-- Some collaborators for the examples: a fixed host string, a coercion that
holds for bool true only, and a `fromString` that keeps the value. -/
def plainCollaborators : Collaborators :=
  { AddressAsString := fun _ => "10.0.0.7"
    getArgAsBool := fun msg index =>
      match msg.args.get? index with
      | some (ofxOscArg.bool b) => b
      | _ => false
    fromString := fun value _ => value }

/-! ## Theorems: listening socket manager -/

theorem liveSockets_append (a b : List Event) :
    liveSockets (a ++ b) = b.foldl liveStep (liveSockets a) := by
  simp [liveSockets, List.foldl_append]

theorem mem_liveSockets (es : List Event) (x : Nat) (h : x ∈ liveSockets es) :
    ∃ sock, Event.created sock ∈ es ∧ sock.id = x := by
  induction es using List.reverseRecOn with
  | nil => simp [liveSockets] at h
  | append_singleton es e ih =>
    rw [liveSockets_append] at h
    cases e with
    | created sock =>
      simp only [List.foldl_cons, List.foldl_nil, liveStep, List.mem_append,
        List.mem_singleton] at h
      rcases h with h | h
      · obtain ⟨s, hs, hx⟩ := ih h
        exact ⟨s, by simp [hs], hx⟩
      · exact ⟨sock, by simp, h.symm⟩
    | deleted id =>
      simp only [List.foldl_cons, List.foldl_nil, liveStep, List.mem_filter] at h
      obtain ⟨s, hs, hx⟩ := ih h.1
      exact ⟨s, by simp [hs], hx⟩
    | createFailed _ _ | breakSignalled _ | spawned _ | run _ _ | nullDeref _ =>
      simp only [List.foldl_cons, List.foldl_nil, liveStep] at h
      obtain ⟨s, hs, hx⟩ := ih h
      exact ⟨s, by simp [hs], hx⟩

theorem not_mem_liveSockets_of_below (es : List Event) (n : Nat)
    (hb : ∀ e ∈ es, createdBelow n e = true) (k : Nat) :
    n ∉ liveSockets (es.take k) := by
  intro hmem
  obtain ⟨s, hs, hx⟩ := mem_liveSockets _ _ hmem
  have := hb _ (List.mem_of_mem_take hs)
  simp [createdBelow] at this
  omega

/-- The state after a `setup` whose socket constructor returns, in closed form. -/
theorem setup_true_eq (r : ofxOscReceiver) (P : Int) :
    r.setup true P = (true,
      { r with
        udpBufferSize := if r.udpBufferSize = 0 then 65535 else r.udpBufferSize
        listenSocket := some ⟨r.nextSocket, P, r.allowReuse⟩
        port := P
        nextSocket := r.nextSocket + 1
        threads := r.threads ++ [ListenThread.mk r.nextSocket ThreadPc.loopTest]
        trace := r.trace ++ release r.listenSocket ++
          [Event.created ⟨r.nextSocket, P, r.allowReuse⟩, Event.spawned r.threads.length] }) := by
  obtain ⟨a, p, ls, ch, ubs, ns, th, tr⟩ := r
  cases ls <;> by_cases hu : ubs = 0 <;> simp [setup, clear, release, hu]

/-- The state after a `setup` whose socket constructor throws, in closed form. -/
theorem setup_false_eq (r : ofxOscReceiver) (P : Int) :
    r.setup false P = (false,
      { r with
        udpBufferSize := if r.udpBufferSize = 0 then 65535 else r.udpBufferSize
        listenSocket := none
        port := if r.listenSocket.isSome then 0 else r.port
        trace := r.trace ++ release r.listenSocket ++ [Event.createFailed P r.allowReuse] }) := by
  obtain ⟨a, p, ls, ch, ubs, ns, th, tr⟩ := r
  cases ls <;> by_cases hu : ubs = 0 <;> simp [setup, clear, release, hu]

/-- After a successful `setup` from a consistent state the new socket is the
only live one. -/
theorem setup_true_liveSockets (r : ofxOscReceiver) (P : Int) (h : Consistent r) :
    liveSockets (r.setup true P).2.trace = [r.nextSocket] := by
  rw [setup_true_eq]
  obtain ⟨hlive, _⟩ := h
  show liveSockets (r.trace ++ release r.listenSocket ++ _) = _
  rw [List.append_assoc, liveSockets_append, hlive]
  cases r.listenSocket <;> simp [release, deleter, liveStep]

/-- At no instant of the history after a successful `setup` from a consistent
state are the old and the new socket both live. -/
theorem setup_true_never_both (r : ofxOscReceiver) (P : Int) (h : Consistent r) :
    ∀ k old, r.listenSocket = some old →
      ¬ (old.id ∈ liveSockets ((r.setup true P).2.trace.take k) ∧
         r.nextSocket ∈ liveSockets ((r.setup true P).2.trace.take k)) := by
  rw [setup_true_eq]
  obtain ⟨hlive, hbelow⟩ := h
  intro k old hold
  show ¬ (old.id ∈ liveSockets ((r.trace ++ release r.listenSocket ++ _).take k) ∧
    r.nextSocket ∈ liveSockets ((r.trace ++ release r.listenSocket ++ _).take k))
  rw [hold] at hlive
  have hne : old.id ≠ r.nextSocket := by
    intro heq
    have hm : old.id ∈ liveSockets (r.trace.take r.trace.length) := by
      rw [List.take_length, hlive]; simp
    rw [heq] at hm
    exact not_mem_liveSockets_of_below r.trace r.nextSocket hbelow _ hm
  rw [hold, List.append_assoc, List.take_append_eq_append_take]
  rcases Nat.lt_or_ge k r.trace.length with hk | hk
  · have h0 : k - r.trace.length = 0 := by omega
    rw [h0, List.take_zero, List.append_nil]
    intro hboth
    exact not_mem_liveSockets_of_below r.trace r.nextSocket hbelow k hboth.2
  · rw [List.take_of_length_le hk, liveSockets_append, hlive]
    generalize k - r.trace.length = j
    rcases j with _ | _ | _ | _ | j <;>
      simp [release, deleter, liveStep, hne, Ne.symm hne]

/-- C2: for every manager state and every port `P` on which socket creation
succeeds, `setup(P)` returns true and leaves as its handle the newly created
socket, bound to `P` with the manager's current reuse flag, with
`getPort() = P`; the events of the call are Break and delete of the old socket,
if one was live, and only then the creation of the new one and the thread
spawn.  When the history agrees with the handle (as it does in every reachable
state) the new socket is the only live one afterwards, and at no instant are
the old and the new socket both live. -/
theorem setup_success (r : ofxOscReceiver) (P : Int) :
    (r.setup true P).1 = true ∧
    (r.setup true P).2.listenSocket = some ⟨r.nextSocket, P, r.allowReuse⟩ ∧
    (r.setup true P).2.getPort = P ∧
    (r.setup true P).2.trace = r.trace ++ release r.listenSocket ++
      [Event.created ⟨r.nextSocket, P, r.allowReuse⟩, Event.spawned r.threads.length] ∧
    (Consistent r →
      liveSockets (r.setup true P).2.trace = [r.nextSocket] ∧
      ∀ k old, r.listenSocket = some old →
        ¬ (old.id ∈ liveSockets ((r.setup true P).2.trace.take k) ∧
           r.nextSocket ∈ liveSockets ((r.setup true P).2.trace.take k))) := by
  refine ⟨?_, ?_, ?_, ?_, fun h => ⟨setup_true_liveSockets r P h, setup_true_never_both r P h⟩⟩
  all_goals rw [setup_true_eq]
  all_goals rfl

/-- Witness for `setup_success`: a receiver listening on port 9000 is set up
again on port 9001. -/
theorem setup_success_witness :
    ((ofxOscReceiver.new.setup true 9000).2.setup true 9001).2.listenSocket =
        some ⟨1, 9001, true⟩ ∧
    ((ofxOscReceiver.new.setup true 9000).2.setup true 9001).2.getPort = 9001 ∧
    liveSockets ((ofxOscReceiver.new.setup true 9000).2.setup true 9001).2.trace = [1] :=
  have h := setup_success (ofxOscReceiver.new.setup true 9000).2 9001
  ⟨h.2.1, h.2.2.1, (h.2.2.2.2 ⟨by decide, by decide⟩).1⟩

theorem createdBelow_succ (n : Nat) (e : Event) (h : createdBelow n e = true) :
    createdBelow (n + 1) e = true := by
  cases e <;> simp_all [createdBelow]
  omega

/-- Consistency only looks at the handle, the history and the counter. -/
theorem Consistent.congr {r r1 : ofxOscReceiver} (h : Consistent r)
    (hs : r1.listenSocket = r.listenSocket) (ht : r1.trace = r.trace)
    (hn : r1.nextSocket = r.nextSocket) : Consistent r1 := by
  unfold Consistent at *
  rw [hs, ht, hn]
  exact h

theorem Consistent.clear {r : ofxOscReceiver} (h : Consistent r) : Consistent r.clear := by
  obtain ⟨hlive, hbelow⟩ := h
  refine ⟨?_, ?_⟩
  · show liveSockets (r.trace ++ release r.listenSocket) = _
    rw [liveSockets_append, hlive]
    cases r.listenSocket <;> simp [release, deleter, liveStep, ofxOscReceiver.clear]
  · intro e he
    change e ∈ r.trace ++ release r.listenSocket at he
    rcases List.mem_append.1 he with he | he
    · exact hbelow e he
    · cases hls : r.listenSocket with
      | none => simp [hls, release] at he
      | some s =>
        simp only [hls, release, deleter, List.mem_cons, List.mem_singleton,
          List.not_mem_nil, or_false] at he
        rcases he with he | he <;> subst he <;> rfl

theorem Consistent.setup {r : ofxOscReceiver} (h : Consistent r) (ok : Bool) (P : Int) :
    Consistent (r.setup ok P).2 := by
  cases ok with
  | true =>
    refine ⟨?_, ?_⟩
    · rw [setup_true_liveSockets r P h, setup_true_eq]
      rfl
    · rw [setup_true_eq]
      intro e he
      change e ∈ r.trace ++ release r.listenSocket ++
        [Event.created ⟨r.nextSocket, P, r.allowReuse⟩, Event.spawned r.threads.length] at he
      show createdBelow (r.nextSocket + 1) e = true
      obtain ⟨_, hbelow⟩ := h
      simp only [List.mem_append, List.mem_cons, List.mem_singleton, List.not_mem_nil,
        or_false] at he
      rcases he with (he | he) | he | he
      · exact createdBelow_succ _ _ (hbelow e he)
      · cases hls : r.listenSocket with
        | none => simp [hls, release] at he
        | some s =>
          simp only [hls, release, deleter, List.mem_cons, List.mem_singleton,
            List.not_mem_nil, or_false] at he
          rcases he with he | he <;> subst he <;> rfl
      · subst he; simp [createdBelow]
      · subst he; rfl
  | false =>
    have hc := Consistent.clear h
    obtain ⟨hlive, hbelow⟩ := hc
    rw [setup_false_eq]
    refine ⟨?_, ?_⟩
    · show liveSockets (r.trace ++ release r.listenSocket ++ _) = _
      change liveSockets (r.trace ++ release r.listenSocket) = _ at hlive
      rw [liveSockets_append, hlive]
      rfl
    · intro e he
      change e ∈ r.trace ++ release r.listenSocket ++ _ at he
      show createdBelow r.nextSocket e = true
      rcases List.mem_append.1 he with he | he
      · exact hbelow e he
      · simp only [List.mem_singleton] at he
        subst he; rfl

/-- Every reachable state is consistent: the hypothesis of `setup_success` holds
throughout the life of a receiver. -/
theorem Reachable.consistent {r : ofxOscReceiver} (h : Reachable r) : Consistent r := by
  induction h with
  | fresh => exact ⟨rfl, by intro e he; cases he⟩
  | setup ok port _ ih => exact ih.setup ok port
  | clear _ ih => exact ih.clear
  | @enableReuse ok r _ ih =>
    unfold ofxOscReceiver.enableReuse
    have h1 : Consistent { r with allowReuse := true } := ih.congr rfl rfl rfl
    dsimp only
    split
    · exact h1.setup ok _
    · exact h1
  | @disableReuse ok r _ ih =>
    unfold ofxOscReceiver.disableReuse
    have h1 : Consistent { r with allowReuse := false } := ih.congr rfl rfl rfl
    dsimp only
    split
    · exact h1.setup ok _
    · exact h1
  | @copy ok sameObject other r _ _ _ ih =>
    unfold ofxOscReceiver.copy
    have h1 : Consistent { r with allowReuse := other.allowReuse, port := other.port } :=
      ih.congr rfl rfl rfl
    split
    · exact ih
    · dsimp only
      split
      · exact h1.setup ok _
      · exact h1

/-- A failed `setup` leaves no socket; the port is reset only when a socket was
live at the call, otherwise the member `port` keeps its value. -/
theorem setup_failure (r : ofxOscReceiver) (P : Int) :
    (r.setup false P).1 = false ∧ (r.setup false P).2.listenSocket = none ∧
    (r.setup false P).2.getPort = if r.listenSocket.isSome then 0 else r.port := by
  rw [setup_false_eq]
  exact ⟨rfl, rfl, rfl⟩

/-- On their own `setup`, `clear`, `enableReuse` and `disableReuse` keep
"no live socket implies port 0": the stale port can only come from `copy`, which
writes `port` before it calls `setup`. -/
theorem port_zero_when_unconfigured_preserved (r : ofxOscReceiver)
    (h : r.listenSocket = none → r.port = 0) :
    (∀ ok P, (r.setup ok P).2.listenSocket = none → (r.setup ok P).2.port = 0) ∧
    (r.clear.listenSocket = none → r.clear.port = 0) ∧
    (∀ ok, (r.enableReuse ok).listenSocket = none → (r.enableReuse ok).port = 0) ∧
    (∀ ok, (r.disableReuse ok).listenSocket = none → (r.disableReuse ok).port = 0) := by
  refine ⟨?_, fun _ => rfl, ?_, ?_⟩
  · intro ok P
    cases ok with
    | true => rw [setup_true_eq]; intro hn; cases hn
    | false =>
      rw [setup_false_eq]
      intro _
      show (if r.listenSocket.isSome then (0 : Int) else r.port) = 0
      cases hls : r.listenSocket with
      | none => simpa using h hls
      | some s => simp
  · intro ok
    unfold ofxOscReceiver.enableReuse
    cases hls : r.listenSocket with
    | none => simpa [hls] using h hls
    | some s =>
      cases ok with
      | true => simp [hls, setup_true_eq]
      | false => simp [hls, setup_false_eq]
  · intro ok
    unfold ofxOscReceiver.disableReuse
    cases hls : r.listenSocket with
    | none => simpa [hls] using h hls
    | some s =>
      cases ok with
      | true => simp [hls, setup_true_eq]
      | false => simp [hls, setup_false_eq]

/-- C1 fails on the code: a fresh receiver is copy-assigned from a receiver that
listens on port 9000 without address reuse, so the bind of the copy fails; the
receiver then holds no socket while `port` is 9000 (the `setup(9000)` call made
by `copy` returned false and left `getPort() = 9000`), and a further failed
`setup(9001)` returns false and still leaves `getPort() = 9000`, not 0. -/
theorem setup_failure_stale_port :
    ({ ofxOscReceiver.new with allowReuse := false, port := 9000 }.setup false 9000).1 = false ∧
    ({ ofxOscReceiver.new with allowReuse := false, port := 9000 }.setup false 9000).2.getPort
      = 9000 ∧
    (ofxOscReceiver.new.copy false false exclusiveListener).listenSocket = none ∧
    ((ofxOscReceiver.new.copy false false exclusiveListener).setup false 9001).1 = false ∧
    ((ofxOscReceiver.new.copy false false exclusiveListener).setup false 9001).2.listenSocket
      = none ∧
    ((ofxOscReceiver.new.copy false false exclusiveListener).setup false 9001).2.getPort
      = 9000 := by
  decide

/-- C3: with a live socket and a successful re-bind, `enableReuse()` (resp.
`disableReuse()`) leaves the reuse flag true (resp. false) and a freshly created
socket bound to the configured port with that flag, created after the old one
was told to stop and deleted, and `getPort()` is the configured port; with no
live socket both calls change only the reuse flag. -/
theorem reuse_toggle (r : ofxOscReceiver) :
    (∀ old, r.listenSocket = some old →
      ((r.enableReuse true).allowReuse = true ∧
       (r.enableReuse true).listenSocket = some ⟨r.nextSocket, r.port, true⟩ ∧
       (r.enableReuse true).getPort = r.port ∧
       (r.enableReuse true).trace = r.trace ++ deleter old ++
         [Event.created ⟨r.nextSocket, r.port, true⟩, Event.spawned r.threads.length]) ∧
      ((r.disableReuse true).allowReuse = false ∧
       (r.disableReuse true).listenSocket = some ⟨r.nextSocket, r.port, false⟩ ∧
       (r.disableReuse true).getPort = r.port ∧
       (r.disableReuse true).trace = r.trace ++ deleter old ++
         [Event.created ⟨r.nextSocket, r.port, false⟩, Event.spawned r.threads.length])) ∧
    (r.listenSocket = none → ∀ ok,
      r.enableReuse ok = { r with allowReuse := true } ∧
      r.disableReuse ok = { r with allowReuse := false }) := by
  constructor
  · intro old hold
    simp only [enableReuse, disableReuse, hold, Option.isSome_some, if_true, setup_true_eq]
    simp [getPort, release]
  · intro hnone ok
    simp [enableReuse, disableReuse, hnone]

/-- Witness for `reuse_toggle`: reuse is disabled on a receiver listening on
port 9000, and enabled on a fresh receiver. -/
theorem reuse_toggle_witness :
    ((ofxOscReceiver.new.setup true 9000).2.disableReuse true).listenSocket =
        some ⟨1, 9000, false⟩ ∧
    ((ofxOscReceiver.new.setup true 9000).2.disableReuse true).getPort = 9000 ∧
    ofxOscReceiver.new.enableReuse true = { ofxOscReceiver.new with allowReuse := true } :=
  ⟨((reuse_toggle (ofxOscReceiver.new.setup true 9000).2).1 ⟨0, 9000, true⟩ rfl).2.2.1,
   ((reuse_toggle (ofxOscReceiver.new.setup true 9000).2).1 ⟨0, 9000, true⟩ rfl).2.2.2.1,
   ((reuse_toggle ofxOscReceiver.new).2 rfl true).1⟩

/-- C4 fails on the code: a reachable receiver holds no live socket while
`getPort()` is not 0.  It is a fresh receiver copy-assigned from a receiver that
listens on port 9000 without address reuse, the bind of the copy failing. -/
theorem reachable_unconfigured_nonzero_port :
    ∃ r : ofxOscReceiver, Reachable r ∧ r.listenSocket = none ∧ r.getPort = 9000 ∧
      r.getPort ≠ 0 :=
  ⟨ofxOscReceiver.new.copy false false exclusiveListener,
    Reachable.copy false false
      (Reachable.setup true 9000 (Reachable.disableReuse true Reachable.fresh)) Reachable.fresh,
    by decide, by decide, by decide⟩

/-- C9 fails on the code: after two successful `setup` calls (ports 9000 and
9001) the thread spawned by the first call, whose socket was object 0, takes two
steps and calls `Run()` on object 1, the socket created by the second call; the
same happens when that thread was already inside `Run()` on object 0 and comes
back from it after the second `setup`. -/
theorem old_thread_runs_new_socket :
    (exec ofxOscReceiver.new
      [Action.setup true 9000, Action.setup true 9001, Action.thread 0, Action.thread 0]).threads
      = [ListenThread.mk 0 (ThreadPc.inRun 1), ListenThread.mk 1 ThreadPc.loopTest] ∧
    (exec ofxOscReceiver.new
      [Action.setup true 9000, Action.setup true 9001, Action.thread 0, Action.thread 0]).trace
      = [Event.created ⟨0, 9000, true⟩, Event.spawned 0,
         Event.breakSignalled 0, Event.deleted 0,
         Event.created ⟨1, 9001, true⟩, Event.spawned 1,
         Event.run 0 1] ∧
    ¬ RunsOwnSocket (exec ofxOscReceiver.new
      [Action.setup true 9000, Action.setup true 9001, Action.thread 0, Action.thread 0]) ∧
    ¬ RunsOwnSocket (exec ofxOscReceiver.new
      [Action.setup true 9000, Action.thread 0, Action.thread 0, Action.setup true 9001,
       Action.thread 0, Action.thread 0, Action.thread 0]) := by
  unfold RunsOwnSocket
  decide

/-! ## Theorems: decoding and hand-off -/

/-- One round of the argument loop appends the table's image of the argument,
or nothing when the table has none. -/
theorem transferArgument_eq (msg : ofxOscMessage) (arg : ReceivedMessageArgument) :
    transferArgument msg arg = { msg with args := msg.args ++ (decodeTable arg).toList } := by
  cases arg <;>
    simp [transferArgument, decodeTable, ofBuffer,
      ReceivedMessageArgument.IsInt32, ReceivedMessageArgument.IsInt64,
      ReceivedMessageArgument.IsFloat, ReceivedMessageArgument.IsDouble,
      ReceivedMessageArgument.IsString, ReceivedMessageArgument.IsSymbol,
      ReceivedMessageArgument.IsChar, ReceivedMessageArgument.IsMidiMessage,
      ReceivedMessageArgument.IsBool, ReceivedMessageArgument.IsInfinitum,
      ReceivedMessageArgument.IsTimeTag, ReceivedMessageArgument.IsRgbaColor,
      ReceivedMessageArgument.IsBlob,
      ReceivedMessageArgument.AsInt32Unchecked, ReceivedMessageArgument.AsInt64Unchecked,
      ReceivedMessageArgument.AsFloatUnchecked, ReceivedMessageArgument.AsDoubleUnchecked,
      ReceivedMessageArgument.AsStringUnchecked, ReceivedMessageArgument.AsSymbolUnchecked,
      ReceivedMessageArgument.AsCharUnchecked, ReceivedMessageArgument.AsMidiMessageUnchecked,
      ReceivedMessageArgument.AsBoolUnchecked, ReceivedMessageArgument.AsTimeTagUnchecked,
      ReceivedMessageArgument.AsRgbaColorUnchecked, ReceivedMessageArgument.AsBlobUnchecked,
      ofxOscMessage.addIntArg, ofxOscMessage.addInt64Arg, ofxOscMessage.addFloatArg,
      ofxOscMessage.addDoubleArg, ofxOscMessage.addStringArg, ofxOscMessage.addSymbolArg,
      ofxOscMessage.addCharArg, ofxOscMessage.addMidiMessageArg, ofxOscMessage.addBoolArg,
      ofxOscMessage.addTriggerArg, ofxOscMessage.addTimetagArg,
      ofxOscMessage.addRgbaColorArg, ofxOscMessage.addBlobArg, ofxOscMessage.addArg]

theorem foldl_transferArgument (args : List ReceivedMessageArgument) (msg : ofxOscMessage) :
    args.foldl transferArgument msg =
      { msg with args := msg.args ++ args.filterMap decodeTable } := by
  induction args generalizing msg with
  | nil => simp
  | cons a rest ih =>
    rw [List.foldl_cons, ih, transferArgument_eq]
    cases h : decodeTable a <;> simp [List.filterMap_cons, h]

/-- What `ProcessMessage` pushes is the decoded message of the specification. -/
theorem ProcessMessage_eq (c : Collaborators) (m : ReceivedMessage)
    (remoteEndpoint : IpEndpointName) (r : ofxOscReceiver) :
    ProcessMessage c m remoteEndpoint r =
      { r with messagesChannel := ⟨r.messagesChannel.queue ++ [decoded c m remoteEndpoint]⟩ } := by
  simp [ProcessMessage, foldl_transferArgument, decoded, ofThreadChannel.send,
    ofxOscMessage.new, ofxOscMessage.setAddress, ofxOscMessage.setRemoteEndpoint]

/-- C5: for every received message and sender endpoint, `ProcessMessage` appends
exactly one decoded message to the channel and changes nothing else; its address
is the address pattern, its sender host and port are those of the endpoint, and
its arguments are the in-order image of the received arguments under the decode
table, arguments of any other wire type being left out.  In particular
"/foo/bar" with the single int32 argument 42 decodes to that address with
exactly one int32 argument, 42. -/
theorem ProcessMessage_decodes :
    (∀ (c : Collaborators) (m : ReceivedMessage) (remoteEndpoint : IpEndpointName)
        (r : ofxOscReceiver),
      ProcessMessage c m remoteEndpoint r =
        { r with messagesChannel := ⟨r.messagesChannel.queue ++
          [{ address := m.AddressPattern
             remoteHost := c.AddressAsString remoteEndpoint
             remotePort := remoteEndpoint.port
             args := m.Arguments.filterMap decodeTable }]⟩ }) ∧
    (∀ (c : Collaborators) (remoteEndpoint : IpEndpointName) (r : ofxOscReceiver),
      (ProcessMessage c ⟨"/foo/bar", [ReceivedMessageArgument.tagInt32 42]⟩ remoteEndpoint
          r).messagesChannel.queue =
        r.messagesChannel.queue ++
          [{ address := "/foo/bar"
             remoteHost := c.AddressAsString remoteEndpoint
             remotePort := remoteEndpoint.port
             args := [ofxOscArg.int32 42] }]) := by
  constructor
  · intro c m remoteEndpoint r
    exact ProcessMessage_eq c m remoteEndpoint r
  · intro c remoteEndpoint r
    rw [ProcessMessage_eq]
    rfl

theorem processAll_eq (c : Collaborators) (arrivals : List (ReceivedMessage × IpEndpointName))
    (r : ofxOscReceiver) :
    processAll c arrivals r =
      { r with messagesChannel :=
        ⟨r.messagesChannel.queue ++ arrivals.map (fun a => decoded c a.1 a.2)⟩ } := by
  unfold processAll
  induction arrivals generalizing r with
  | nil => simp
  | cons a rest ih =>
    rw [List.foldl_cons, ih, ProcessMessage_eq]
    simp

theorem getNextMessages_eq (k : Nat) (message : ofxOscMessage) (r : ofxOscReceiver)
    (hk : k ≤ r.messagesChannel.queue.length) :
    getNextMessages k message r =
      ((r.messagesChannel.queue.take k).map (fun m => (true, m)),
        { r with messagesChannel := ⟨r.messagesChannel.queue.drop k⟩ }) := by
  induction k generalizing message r with
  | zero => simp [getNextMessages]
  | succ k ih =>
    obtain ⟨a, p, ls, ⟨q⟩, ubs, ns, th, tr⟩ := r
    cases q with
    | nil => simp at hk
    | cons front rest =>
      simp only [List.length_cons, Nat.add_le_add_iff_right] at hk
      simp only [getNextMessages, getNextMessage, ofThreadChannel.tryReceive]
      rw [ih]
      · simp
      · exact hk

/-- C6: after `ProcessMessage` has handled `n` received messages on an
initially empty channel, with no consumption in between, the next `n` calls of
`getNextMessage` each return true and yield the decoded messages in arrival
order, the call after them returns false (leaving the caller's message and the
receiver as they are), and `hasWaitingMessages()` after `k ≤ n` of the calls is
true exactly when `k < n`. -/
theorem fifo_delivery (c : Collaborators) (arrivals : List (ReceivedMessage × IpEndpointName))
    (r : ofxOscReceiver) (message : ofxOscMessage) :
    (getNextMessages arrivals.length message
        (processAll c arrivals { r with messagesChannel := ⟨[]⟩ })).1 =
      arrivals.map (fun a => (true, decoded c a.1 a.2)) ∧
    (∀ m : ofxOscMessage,
      getNextMessage m (getNextMessages arrivals.length message
        (processAll c arrivals { r with messagesChannel := ⟨[]⟩ })).2 =
      (false, m, (getNextMessages arrivals.length message
        (processAll c arrivals { r with messagesChannel := ⟨[]⟩ })).2)) ∧
    (∀ k, k ≤ arrivals.length →
      hasWaitingMessages (getNextMessages k message
        (processAll c arrivals { r with messagesChannel := ⟨[]⟩ })).2 =
      decide (k < arrivals.length)) := by
  rw [processAll_eq]
  refine ⟨?_, ?_, ?_⟩
  · rw [getNextMessages_eq _ _ _ (by simp)]
    have hlen : arrivals.length = (arrivals.map fun a => decoded c a.1 a.2).length := by simp
    simp only [List.nil_append]
    rw [hlen, List.take_length, List.map_map]
    rfl
  · intro m
    rw [getNextMessages_eq _ _ _ (by simp)]
    have hnil : List.drop arrivals.length (arrivals.map fun a => decoded c a.1 a.2) = [] := by
      apply List.drop_of_length_le
      simp
    simp [getNextMessage, ofThreadChannel.tryReceive, hnil]
  · intro k hk
    rw [getNextMessages_eq _ _ _ (by simpa using hk)]
    simp only [hasWaitingMessages, ofThreadChannel.empty, List.nil_append]
    rcases Nat.lt_or_ge k arrivals.length with h | h
    · have hne : (List.drop k (arrivals.map fun a => decoded c a.1 a.2)) ≠ [] := by
        intro hnil
        have := congrArg List.length hnil
        simp at this
        omega
      cases hd : List.drop k (arrivals.map fun a => decoded c a.1 a.2) with
      | nil => exact absurd hd hne
      | cons x xs => simp [h]
    · have : List.drop k (arrivals.map fun a => decoded c a.1 a.2) = [] := by
        apply List.drop_of_length_le
        simpa using h
      rw [this]
      simp
      omega

/-- Witness for `fifo_delivery`: two messages with different payloads arrive in
the order M1, M2 and come out in that order, and a third call returns false. -/
theorem fifo_delivery_witness :
    (getNextMessages 3 ofxOscMessage.new
      (processAll ⟨fun _ => "10.0.0.7", fun _ _ => false, fun v _ => v⟩
        [(⟨"/m", [ReceivedMessageArgument.tagInt32 1]⟩, ⟨167772167, 7000⟩),
         (⟨"/m", [ReceivedMessageArgument.tagInt32 2]⟩, ⟨167772167, 7000⟩)]
        ofxOscReceiver.new)).1 =
      [(true, ⟨"/m", "10.0.0.7", 7000, [ofxOscArg.int32 1]⟩),
       (true, ⟨"/m", "10.0.0.7", 7000, [ofxOscArg.int32 2]⟩),
       (false, ⟨"/m", "10.0.0.7", 7000, [ofxOscArg.int32 2]⟩)] ∧
    hasWaitingMessages (getNextMessages 1 ofxOscMessage.new
      (processAll ⟨fun _ => "10.0.0.7", fun _ _ => false, fun v _ => v⟩
        [(⟨"/m", [ReceivedMessageArgument.tagInt32 1]⟩, ⟨167772167, 7000⟩),
         (⟨"/m", [ReceivedMessageArgument.tagInt32 2]⟩, ⟨167772167, 7000⟩)]
        ofxOscReceiver.new)).2 = true :=
  ⟨by decide,
   (fifo_delivery ⟨fun _ => "10.0.0.7", fun _ _ => false, fun v _ => v⟩
      [(⟨"/m", [ReceivedMessageArgument.tagInt32 1]⟩, ⟨167772167, 7000⟩),
       (⟨"/m", [ReceivedMessageArgument.tagInt32 2]⟩, ⟨167772167, 7000⟩)]
      ofxOscReceiver.new ofxOscMessage.new).2.2 1 (by decide)⟩

/-! ## Theorems: parameter binding -/

open ofAbstractParameter in
theorem findChild_some {name : String} {cs : List ofAbstractParameter} {k : Nat}
    {child : ofAbstractParameter} (h : findChild name cs = some (k, child)) :
    cs[k]? = some child ∧ child.getEscapedName = name := by
  induction cs generalizing k with
  | nil => simp [findChild] at h
  | cons c rest ih =>
    unfold findChild at h
    split at h
    · rename_i hc
      simp only [Option.some.injEq, Prod.mk.injEq] at h
      obtain ⟨hk, hchild⟩ := h
      subst hk; subst hchild
      exact ⟨by simp, hc⟩
    · cases hf : findChild name rest with
      | none => simp [hf] at h
      | some kc =>
        obtain ⟨k1, c1⟩ := kc
        simp only [hf, Option.map_some', Option.some.injEq, Prod.mk.injEq] at h
        obtain ⟨hk, hchild⟩ := h
        subst hk; subst hchild
        have := ih hf
        exact ⟨by simpa using this.1, this.2⟩

open ofAbstractParameter in
theorem deref_append (tree : ofAbstractParameter) (path : List Nat) (n : String)
    (cs : List ofAbstractParameter) (k : Nat) (child : ofAbstractParameter)
    (h : tree.deref path = some (group n cs)) (hk : cs[k]? = some child) :
    tree.deref (path ++ [k]) = some child := by
  induction path generalizing tree with
  | nil =>
    simp only [deref, Option.some.injEq] at h
    subst h
    simp [deref, hk]
  | cons j js ih =>
    cases tree with
    | scalar _ _ => simp [deref] at h
    | group m ds =>
      simp only [deref, List.cons_append, List.get?_eq_getElem?] at h ⊢
      cases hj : ds[j]? with
      | none => simp [hj] at h
      | some d =>
        simp only [hj] at h ⊢
        exact ih d h

theorem deref_nil (tree : ofAbstractParameter) : tree.deref [] = some tree := by
  cases tree <;> rfl

theorem loopBody_null (c : Collaborators) (msg : ofxOscMessage) (address : List String)
    (i : Nat) (tree : ofAbstractParameter) :
    loopBody c msg address i ⟨tree, none⟩ = Except.ok ⟨tree, none⟩ := rfl

theorem loopBody_mismatch (c : Collaborators) (msg : ofxOscMessage) (address : List String)
    (i : Nat) (tree node : ofAbstractParameter) (path : List Nat) (segment : String)
    (hd : tree.deref path = some node) (hi : address[i]? = some segment)
    (hne : segment ≠ node.getEscapedName) :
    loopBody c msg address i ⟨tree, some path⟩ = Except.ok ⟨tree, some path⟩ := by
  simp [loopBody, hd, hi, hne]
  rfl

theorem loopBody_group (c : Collaborators) (msg : ofxOscMessage) (address : List String)
    (i : Nat) (tree : ofAbstractParameter) (path : List Nat) (n : String)
    (cs : List ofAbstractParameter) (next : String)
    (hd : tree.deref path = some (ofAbstractParameter.group n cs))
    (hi : address[i]? = some n) (hn : address[i + 1]? = some next) :
    loopBody c msg address i ⟨tree, some path⟩ =
      Except.ok ⟨tree, (ofAbstractParameter.findChild next cs).map (fun kc => path ++ [kc.1])⟩ := by
  have hlen : i + 1 ≤ address.length := by
    obtain ⟨hlt, _⟩ := List.getElem?_eq_some.1 hi
    omega
  simp only [loopBody, hd, hi, hn, ofAbstractParameter.getEscapedName,
    ofAbstractParameter.type, ofAbstractParameter.children, if_true, ge_iff_le, hlen,
    List.get?_eq_getElem?]
  cases ofAbstractParameter.findChild next cs <;> rfl

theorem loopBody_group_last (c : Collaborators) (msg : ofxOscMessage) (address : List String)
    (i : Nat) (tree : ofAbstractParameter) (path : List Nat) (n : String)
    (cs : List ofAbstractParameter)
    (hd : tree.deref path = some (ofAbstractParameter.group n cs))
    (hi : address[i]? = some n) (hn : address[i + 1]? = none) :
    loopBody c msg address i ⟨tree, some path⟩ =
      Except.error (Fault.outOfBounds (i + 1) address.length) := by
  have hlen : i + 1 ≤ address.length := by
    obtain ⟨hlt, _⟩ := List.getElem?_eq_some.1 hi
    omega
  simp only [loopBody, hd, hi, hn, ofAbstractParameter.getEscapedName,
    ofAbstractParameter.type, if_true, ge_iff_le, hlen, List.get?_eq_getElem?]
  rfl

/-- On a scalar node whose name equals the segment, the chain of type tests of
`getParameter` makes the assignment of the specification's table. -/
theorem loopBody_scalar (c : Collaborators) (msg : ofxOscMessage) (address : List String)
    (i : Nat) (tree : ofAbstractParameter) (path : List Nat) (n : String) (v : ParamValue)
    (hd : tree.deref path = some (ofAbstractParameter.scalar n v))
    (hi : address[i]? = some n) :
    loopBody c msg address i ⟨tree, some path⟩ =
      Except.ok ⟨specBind c tree path v msg, some path⟩ := by
  obtain ⟨addr, host, port, args⟩ := msg
  simp only [loopBody, hd, hi, List.get?_eq_getElem?, ofAbstractParameter.getEscapedName,
    ofAbstractParameter.type, if_true]
  cases args with
  | nil =>
    cases v <;>
      simp [specBind, specAssign, ParamValue.type, ofxOscMessage.getArgType] <;> rfl
  | cons a rest =>
    cases v <;> cases a <;>
      (try rename_i b; cases b) <;>
      simp [specBind, specAssign, ParamValue.type, ofxOscMessage.getArgType,
        ofxOscArg.getType, ofxOscMessage.getArgAsInt32, ofxOscMessage.getArgAsFloat,
        ofxOscMessage.getArgAsDouble, ofxOscMessage.getArgAsString] <;> rfl

/-- Once `p` is null the remaining rounds of the loop do nothing. -/
theorem foldlM_loopBody_null (c : Collaborators) (msg : ofxOscMessage) (address : List String)
    (tree : ofAbstractParameter) (indices : List Nat) :
    indices.foldlM (fun st i => loopBody c msg address i st) ⟨tree, none⟩ =
      Except.ok ⟨tree, none⟩ := by
  induction indices with
  | nil => rfl
  | cons i rest ih =>
    rw [List.foldlM_cons, loopBody_null]
    exact ih

theorem getElem?_of_drop {address : List String} {i : Nat} {segment : String}
    {rest : List String} (h : address.drop i = segment :: rest) :
    address[i]? = some segment ∧ address[i + 1]? = rest[0]? ∧ address.drop (i + 1) = rest := by
  have h0 : (address.drop i)[0]? = address[i]? := by
    rw [List.getElem?_drop]; simp
  have h1 : (address.drop i)[1]? = address[i + 1]? := by
    rw [List.getElem?_drop]
  have h2 : address.drop (i + 1) = (address.drop i).drop 1 := by
    rw [List.drop_drop]
  rw [h] at h0 h1 h2
  refine ⟨?_, ?_, ?_⟩
  · rw [← h0]; simp
  · rw [← h1]; simp
  · rw [h2]; rfl

/-- The loop follows a resolving address down to its terminal scalar and makes
the assignment there. -/
theorem foldlM_loopBody_terminal (c : Collaborators) (msg : ofxOscMessage)
    (address : List String) (target : List Nat) (name : String) (value : ParamValue) :
    ∀ (rest : List String) (i : Nat) (segment : String) (tree node : ofAbstractParameter)
      (path : List Nat),
      address.drop i = segment :: rest →
      tree.deref path = some node →
      node.getEscapedName = segment →
      resolveFrom node path rest = Resolution.terminal target name value →
      (List.range' i (rest.length + 1)).foldlM (fun st j => loopBody c msg address j st)
          ⟨tree, some path⟩ =
        Except.ok ⟨specBind c tree target value msg, some target⟩ := by
  intro rest
  induction rest with
  | nil =>
    intro i segment tree node path hdrop hd hname hres
    obtain ⟨hi, _, _⟩ := getElem?_of_drop hdrop
    cases node with
    | group m cs => simp [resolveFrom] at hres
    | scalar m v =>
      simp only [resolveFrom, Resolution.terminal.injEq] at hres
      obtain ⟨hp, _, hv⟩ := hres
      subst hp; subst hv
      simp only [ofAbstractParameter.getEscapedName] at hname
      subst hname
      simp only [List.length_nil, Nat.zero_add, List.range'_one, List.foldlM_cons,
        List.foldlM_nil]
      rw [loopBody_scalar c msg address i tree path m v hd hi]
      rfl
  | cons s rest1 ih =>
    intro i segment tree node path hdrop hd hname hres
    obtain ⟨hi, hnext, hdrop1⟩ := getElem?_of_drop hdrop
    cases node with
    | scalar m v => simp [resolveFrom] at hres
    | group m cs =>
      simp only [ofAbstractParameter.getEscapedName] at hname
      subst hname
      simp only [resolveFrom] at hres
      cases hf : ofAbstractParameter.findChild s cs with
      | none => simp [hf] at hres
      | some kc =>
        obtain ⟨k, child⟩ := kc
        simp only [hf] at hres
        obtain ⟨hk, hchild⟩ := findChild_some hf
        rw [List.length_cons, List.range'_succ, List.foldlM_cons,
          loopBody_group c msg address i tree path m cs s hd hi (by simpa using hnext), hf]
        exact ih (i + 1) s tree child (path ++ [k]) hdrop1
          (deref_append tree path m cs k child hd hk) hchild hres

/-- The loop stops binding at a segment that names no child of the group reached:
`p` becomes null and the tree is left as it is. -/
theorem foldlM_loopBody_unmatchedChild (c : Collaborators) (msg : ofxOscMessage)
    (address : List String) (stop : List Nat) :
    ∀ (rest : List String) (i : Nat) (segment : String) (tree node : ofAbstractParameter)
      (path : List Nat),
      address.drop i = segment :: rest →
      tree.deref path = some node →
      node.getEscapedName = segment →
      resolveFrom node path rest = Resolution.unmatchedChild stop →
      (List.range' i (rest.length + 1)).foldlM (fun st j => loopBody c msg address j st)
          ⟨tree, some path⟩ =
        Except.ok ⟨tree, none⟩ := by
  intro rest
  induction rest with
  | nil =>
    intro i segment tree node path hdrop hd hname hres
    cases node <;> simp [resolveFrom] at hres
  | cons s rest1 ih =>
    intro i segment tree node path hdrop hd hname hres
    obtain ⟨hi, hnext, hdrop1⟩ := getElem?_of_drop hdrop
    cases node with
    | scalar m v => simp [resolveFrom] at hres
    | group m cs =>
      simp only [ofAbstractParameter.getEscapedName] at hname
      subst hname
      simp only [resolveFrom] at hres
      rw [List.length_cons, List.range'_succ, List.foldlM_cons,
        loopBody_group c msg address i tree path m cs s hd hi (by simpa using hnext)]
      cases hf : ofAbstractParameter.findChild s cs with
      | none => exact foldlM_loopBody_null c msg address tree _
      | some kc =>
        obtain ⟨k, child⟩ := kc
        simp only [hf] at hres
        obtain ⟨hk, hchild⟩ := findChild_some hf
        exact ih (i + 1) s tree child (path ++ [k]) hdrop1
          (deref_append tree path m cs k child hd hk) hchild hres

/-- When no segment equals the root's escaped name the loop never leaves the
root and assigns nothing. -/
theorem foldlM_loopBody_root_absent (c : Collaborators) (msg : ofxOscMessage)
    (address : List String) (root : ofAbstractParameter)
    (habsent : root.getEscapedName ∉ address) (indices : List Nat)
    (hin : ∀ i ∈ indices, i < address.length) :
    indices.foldlM (fun st i => loopBody c msg address i st) ⟨root, some []⟩ =
      Except.ok ⟨root, some []⟩ := by
  induction indices with
  | nil => rfl
  | cons i rest ih =>
    have hi : i < address.length := hin i (by simp)
    have hget : address[i]? = some address[i] := List.getElem?_eq_getElem hi
    have hne : address[i] ≠ root.getEscapedName := by
      intro heq
      apply habsent
      rw [← heq]
      exact List.getElem_mem hi
    rw [List.foldlM_cons, loopBody_mismatch c msg address i root root [] address[i] (deref_nil root) hget hne]
    exact ih (fun j hj => hin j (by simp [hj]))

/-- The loop reads `address[address.size()]` when the address ends at a group:
the guard `address.size() >= i+1` holds for the last index too. -/
theorem foldlM_loopBody_endsAtGroup (c : Collaborators) (msg : ofxOscMessage)
    (address : List String) (stop : List Nat) :
    ∀ (rest : List String) (i : Nat) (segment : String) (tree node : ofAbstractParameter)
      (path : List Nat),
      address.drop i = segment :: rest →
      tree.deref path = some node →
      node.getEscapedName = segment →
      resolveFrom node path rest = Resolution.endsAtGroup stop →
      (List.range' i (rest.length + 1)).foldlM (fun st j => loopBody c msg address j st)
          ⟨tree, some path⟩ =
        Except.error (Fault.outOfBounds address.length address.length) := by
  intro rest
  induction rest with
  | nil =>
    intro i segment tree node path hdrop hd hname hres
    obtain ⟨hi, hnext, hdrop1⟩ := getElem?_of_drop hdrop
    have hlen : address.length = i + 1 := by
      have h1 := congrArg List.length hdrop1
      have h2 := (List.getElem?_eq_some.1 hi).1
      simp at h1
      omega
    cases node with
    | scalar m v => simp [resolveFrom] at hres
    | group m cs =>
      simp only [ofAbstractParameter.getEscapedName] at hname
      subst hname
      simp only [List.length_nil, Nat.zero_add, List.range'_one, List.foldlM_cons,
        List.foldlM_nil]
      rw [loopBody_group_last c msg address i tree path m cs hd hi (by simpa using hnext),
        hlen]
      rfl
  | cons s rest1 ih =>
    intro i segment tree node path hdrop hd hname hres
    obtain ⟨hi, hnext, hdrop1⟩ := getElem?_of_drop hdrop
    cases node with
    | scalar m v => simp [resolveFrom] at hres
    | group m cs =>
      simp only [ofAbstractParameter.getEscapedName] at hname
      subst hname
      simp only [resolveFrom] at hres
      cases hf : ofAbstractParameter.findChild s cs with
      | none => simp [hf] at hres
      | some kc =>
        obtain ⟨k, child⟩ := kc
        simp only [hf] at hres
        obtain ⟨hk, hchild⟩ := findChild_some hf
        rw [List.length_cons, List.range'_succ, List.foldlM_cons,
          loopBody_group c msg address i tree path m cs s hd hi (by simpa using hnext), hf]
        exact ih (i + 1) s tree child (path ++ [k]) hdrop1
          (deref_append tree path m cs k child hd hk) hchild hres

/-- A resolving address ends at the scalar it names. -/
theorem deref_of_resolveFrom (tree : ofAbstractParameter) (target : List Nat) (name : String)
    (value : ParamValue) :
    ∀ (rest : List String) (node : ofAbstractParameter) (path : List Nat),
      tree.deref path = some node →
      resolveFrom node path rest = Resolution.terminal target name value →
      tree.deref target = some (ofAbstractParameter.scalar name value) := by
  intro rest
  induction rest with
  | nil =>
    intro node path hd hres
    cases node with
    | group m cs => simp [resolveFrom] at hres
    | scalar m v =>
      simp only [resolveFrom, Resolution.terminal.injEq] at hres
      obtain ⟨hp, hn, hv⟩ := hres
      subst hp; subst hn; subst hv
      exact hd
  | cons s rest1 ih =>
    intro node path hd hres
    cases node with
    | scalar m v => simp [resolveFrom] at hres
    | group m cs =>
      simp only [resolveFrom] at hres
      cases hf : ofAbstractParameter.findChild s cs with
      | none => simp [hf] at hres
      | some kc =>
        obtain ⟨k, child⟩ := kc
        simp only [hf] at hres
        exact ih child (path ++ [k])
          (deref_append tree path m cs k child hd (findChild_some hf).1) hres

open ofAbstractParameter in
/-- Assignment through a pointer to a scalar sets that scalar. -/
theorem scalarAt_assign_self (tree : ofAbstractParameter) (path : List Nat) (n : String)
    (v0 v : ParamValue) (h : tree.deref path = some (scalar n v0)) :
    (tree.assign path v).scalarAt path = some (n, v) := by
  induction path generalizing tree with
  | nil =>
    rw [deref_nil] at h
    simp only [Option.some.injEq] at h
    subst h
    simp [assign, scalarAt, deref]
  | cons k ks ih =>
    cases tree with
    | scalar _ _ => simp [deref] at h
    | group m cs =>
      simp only [deref, List.get?_eq_getElem?] at h
      cases hk : cs[k]? with
      | none => simp [hk] at h
      | some child =>
        simp only [hk] at h
        have hlt : k < cs.length := (List.getElem?_eq_some.1 hk).1
        have := ih child h
        simp only [scalarAt, assign, deref, List.get?_eq_getElem?, hk] at this ⊢
        simpa [List.getElem?_set, hlt] using this

open ofAbstractParameter in
/-- Assignment through a pointer changes no scalar elsewhere in the tree. -/
theorem scalarAt_assign_other (tree : ofAbstractParameter) (path : List Nat) (v : ParamValue)
    (q : List Nat) (hq : q ≠ path) :
    (tree.assign path v).scalarAt q = tree.scalarAt q := by
  induction path generalizing tree q with
  | nil =>
    cases tree with
    | group m cs => simp [assign]
    | scalar m v0 =>
      cases q with
      | nil => exact absurd rfl hq
      | cons j qs => simp [assign, scalarAt, deref]
  | cons k ks ih =>
    cases tree with
    | scalar m v0 => simp [assign]
    | group m cs =>
      cases hk : cs[k]? with
      | none => simp [assign, hk]
      | some child =>
        have hlt : k < cs.length := (List.getElem?_eq_some.1 hk).1
        cases q with
        | nil => simp [assign, scalarAt, deref, hk]
        | cons j qs =>
          by_cases hj : j = k
          · subst hj
            have hqs : qs ≠ ks := fun e => hq (by rw [e])
            have := ih child qs hqs
            simp only [scalarAt] at this
            simp only [scalarAt, assign, deref, List.get?_eq_getElem?, hk,
              List.getElem?_set, hlt, if_true]
            exact this
          · have hkj : ¬ k = j := fun e => hj e.symm
            simp [scalarAt, assign, deref, hk, List.getElem?_set, hkj]

/-- For one message, `drain` continues with the bound tree. -/
theorem drain_cons_ok (c : Collaborators) (root bound : ofAbstractParameter)
    (msg : ofxOscMessage) (rest : List ofxOscMessage)
    (h : bindMessage c root msg = Except.ok bound) :
    drain c root (msg :: rest) = drain c bound rest := by
  simp [drain, h]

/-- With a single queued message `getParameter` returns true, the bound tree
and an empty channel. -/
theorem getParameter_single (c : Collaborators) (root bound : ofAbstractParameter)
    (msg : ofxOscMessage) (r : ofxOscReceiver)
    (h : bindMessage c root msg = Except.ok bound) :
    getParameter c root { r with messagesChannel := ⟨[msg]⟩ } =
      Except.ok (true, bound, { r with messagesChannel := ⟨[]⟩ }) := by
  simp only [getParameter, drain, h]
  rfl

/-- The binding of a message whose address resolves to a scalar. -/
theorem bindMessage_terminal (c : Collaborators) (root : ofAbstractParameter)
    (msg : ofxOscMessage) (path : List Nat) (name : String) (value : ParamValue)
    (h : resolve root (ofSplitString msg.getAddress '/' true) =
      Resolution.terminal path name value) :
    bindMessage c root msg = Except.ok (specBind c root path value msg) := by
  unfold bindMessage
  generalize ofSplitString msg.getAddress '/' true = address at h
  cases address with
  | nil => simp [resolve] at h
  | cons segment rest =>
    simp only [resolve] at h
    split at h
    · rename_i hseg
      simp only [List.length_cons, List.range_eq_range']
      rw [foldlM_loopBody_terminal c msg (segment :: rest) path name value rest 0 segment root
        root [] rfl (deref_nil root) hseg.symm h]
      rfl
    · simp at h

/-- The binding of a message whose address names no child at some group, or
never names the root. -/
theorem bindMessage_unmatched (c : Collaborators) (root : ofAbstractParameter)
    (msg : ofxOscMessage)
    (h : root.getEscapedName ∉ ofSplitString msg.getAddress '/' true ∨
      ∃ stop, resolve root (ofSplitString msg.getAddress '/' true) =
        Resolution.unmatchedChild stop) :
    bindMessage c root msg = Except.ok root := by
  unfold bindMessage
  generalize ofSplitString msg.getAddress '/' true = address at h
  rcases h with h | ⟨stop, h⟩
  · dsimp only
    rw [foldlM_loopBody_root_absent c msg address root h _
      (fun i hi => List.mem_range.1 hi)]
    rfl
  · cases address with
    | nil => simp [resolve] at h
    | cons segment rest =>
      simp only [resolve] at h
      split at h
      · rename_i hseg
        simp only [List.length_cons, List.range_eq_range']
        rw [foldlM_loopBody_unmatchedChild c msg (segment :: rest) stop rest 0 segment root
          root [] rfl (deref_nil root) hseg.symm h]
        rfl
      · simp at h

/-- The binding of a message whose address ends at a group runs into the read
past the end of the address vector. -/
theorem bindMessage_endsAtGroup (c : Collaborators) (root : ofAbstractParameter)
    (msg : ofxOscMessage) (stop : List Nat)
    (h : resolve root (ofSplitString msg.getAddress '/' true) = Resolution.endsAtGroup stop) :
    bindMessage c root msg =
      Except.error (Fault.outOfBounds (ofSplitString msg.getAddress '/' true).length
        (ofSplitString msg.getAddress '/' true).length) := by
  unfold bindMessage
  generalize ofSplitString msg.getAddress '/' true = address at h
  cases address with
  | nil => simp [resolve] at h
  | cons segment rest =>
    simp only [resolve] at h
    split at h
    · rename_i hseg
      simp only [List.range_eq_range']
      rw [List.length_cons, foldlM_loopBody_endsAtGroup c msg (segment :: rest) stop rest 0
        segment root root [] rfl (deref_nil root) hseg.symm h]
      rfl
    · simp at h

/-- C7: for every parameter tree and every queued message whose address resolves
segment by segment from the root to a terminal scalar node, `getParameter`
makes for that message exactly the assignment of the table `specAssign` (int
node from int32, float node from float32, double node from float64, bool node
from the boolean coercion of a true, false, int32, int64, float32, float64,
string or symbol argument, otherwise `fromString` of a string argument, and no
change in every other combination) at that node, and the scalar at every other
position keeps its name and value. -/
theorem getParameter_assigns (c : Collaborators) (root : ofAbstractParameter)
    (msg : ofxOscMessage) (r : ofxOscReceiver) (path : List Nat) (name : String)
    (value : ParamValue)
    (h : resolve root (ofSplitString msg.getAddress '/' true) =
      Resolution.terminal path name value) :
    bindMessage c root msg = Except.ok (specBind c root path value msg) ∧
    (∀ rest, drain c root (msg :: rest) = drain c (specBind c root path value msg) rest) ∧
    getParameter c root { r with messagesChannel := ⟨[msg]⟩ } =
      Except.ok (true, specBind c root path value msg, { r with messagesChannel := ⟨[]⟩ }) ∧
    root.scalarAt path = some (name, value) ∧
    (specBind c root path value msg).scalarAt path =
      some (name, (specAssign c value msg).getD value) ∧
    ∀ q, q ≠ path → (specBind c root path value msg).scalarAt q = root.scalarAt q := by
  have hb := bindMessage_terminal c root msg path name value h
  have hd : root.deref path = some (ofAbstractParameter.scalar name value) := by
    generalize ofSplitString msg.getAddress '/' true = address at h
    cases address with
    | nil => simp [resolve] at h
    | cons segment rest =>
      simp only [resolve] at h
      split at h
      · exact deref_of_resolveFrom root path name value rest root [] (deref_nil root) h
      · simp at h
  have hself : root.scalarAt path = some (name, value) := by
    simp [ofAbstractParameter.scalarAt, hd]
  refine ⟨hb, fun rest => drain_cons_ok c root _ msg rest hb,
    getParameter_single c root _ msg r hb, hself, ?_, ?_⟩
  · unfold specBind
    cases specAssign c value msg with
    | none => simpa using hself
    | some v => simpa using scalarAt_assign_self root path name value v hd
  · intro q hq
    unfold specBind
    cases specAssign c value msg with
    | none => rfl
    | some v => exact scalarAt_assign_other root path v q hq

/-- Witness for `getParameter_assigns`: a float32 0.5 sent to "/synth/gain" sets
the float node `gain` to 0.5 and leaves `freq` alone. -/
theorem getParameter_assigns_witness :
    bindMessage plainCollaborators synthTree (halfTo "/synth/gain") = Except.ok tunedTree ∧
    getParameter plainCollaborators synthTree
        { ofxOscReceiver.new with messagesChannel := ⟨[halfTo "/synth/gain"]⟩ } =
      Except.ok (true, tunedTree, { ofxOscReceiver.new with messagesChannel := ⟨[]⟩ }) ∧
    tunedTree.scalarAt [1] = some ("gain", ParamValue.float 1056964608) ∧
    tunedTree.scalarAt [0] = synthTree.scalarAt [0] :=
  have h := getParameter_assigns plainCollaborators synthTree (halfTo "/synth/gain")
    ofxOscReceiver.new [1] "gain" (ParamValue.float 0) (by decide)
  ⟨h.1, h.2.2.1, h.2.2.2.2.1, h.2.2.2.2.2 [0] (by decide)⟩

/-- C8 fails as stated: "/foo/synth/gain" does not resolve from the root `synth`
(its first segment is not the root's name) and "/synth/gain/extra" does not
resolve either (a segment is left over after the scalar `gain`), yet for both
`getParameter` assigns 0.5 to `gain`. -/
theorem unmatched_address_still_binds :
    resolve synthTree (ofSplitString (halfTo "/foo/synth/gain").getAddress '/' true) =
      Resolution.unmatchedRoot ∧
    bindMessage plainCollaborators synthTree (halfTo "/foo/synth/gain") = Except.ok tunedTree ∧
    resolve synthTree (ofSplitString (halfTo "/synth/gain/extra").getAddress '/' true) =
      Resolution.beyondScalar [1] ∧
    bindMessage plainCollaborators synthTree (halfTo "/synth/gain/extra") =
      Except.ok tunedTree ∧
    synthTree.scalarAt [1] = some ("gain", ParamValue.float 0) ∧
    tunedTree.scalarAt [1] = some ("gain", ParamValue.float 1056964608) :=
  ⟨by decide, rfl, by decide, rfl, by decide, by decide⟩

/-- C8 as amended: for every parameter tree and every queued message whose
address either has no segment equal to the root's escaped name, or starts with
the root's escaped name and, following children of groups, reaches a segment
that names no child of the group reached so far, `getParameter` makes no
assignment for that message and leaves the tree as it is, whatever the later
segments are. -/
theorem getParameter_unmatched (c : Collaborators) (root : ofAbstractParameter)
    (msg : ofxOscMessage) (r : ofxOscReceiver)
    (h : root.getEscapedName ∉ ofSplitString msg.getAddress '/' true ∨
      ∃ stop, resolve root (ofSplitString msg.getAddress '/' true) =
        Resolution.unmatchedChild stop) :
    bindMessage c root msg = Except.ok root ∧
    (∀ rest, drain c root (msg :: rest) = drain c root rest) ∧
    getParameter c root { r with messagesChannel := ⟨[msg]⟩ } =
      Except.ok (true, root, { r with messagesChannel := ⟨[]⟩ }) :=
  have hb := bindMessage_unmatched c root msg h
  ⟨hb, fun rest => drain_cons_ok c root root msg rest hb, getParameter_single c root root msg r hb⟩

/-- Witness for `getParameter_unmatched`: a message to "/synth/missing" (and to
"/synth/missing/gain") leaves the tree unchanged. -/
theorem getParameter_unmatched_witness :
    bindMessage plainCollaborators synthTree (halfTo "/synth/missing") = Except.ok synthTree ∧
    bindMessage plainCollaborators synthTree (halfTo "/synth/missing/gain") =
      Except.ok synthTree :=
  ⟨(getParameter_unmatched plainCollaborators synthTree (halfTo "/synth/missing")
      ofxOscReceiver.new (Or.inr ⟨[], by decide⟩)).1,
   (getParameter_unmatched plainCollaborators synthTree (halfTo "/synth/missing/gain")
      ofxOscReceiver.new (Or.inr ⟨[], by decide⟩)).1⟩

/-- C10 fails on the code: for the address "/synth", whose last segment names the
group `synth`, the guard `address.size() >= i+1` passes at `i = 0` with one
segment, and the child lookup reads `address[1]`, past the end. -/
theorem lookahead_out_of_bounds :
    ofSplitString (halfTo "/synth").getAddress '/' true = ["synth"] ∧
    bindMessage plainCollaborators synthTree (halfTo "/synth") =
      Except.error (Fault.outOfBounds 1 1) ∧
    getParameter plainCollaborators synthTree
        { ofxOscReceiver.new with messagesChannel := ⟨[halfTo "/synth"]⟩ } =
      Except.error (Fault.outOfBounds 1 1) :=
  ⟨by decide, rfl, rfl⟩

end ofxOscReceiver
